import Mathlib

/-!
Verification of the momentum trading algorithm (backend/services):
a shallow embedding in Lean 4 of the decision engine implemented in
`trading_algorithm.py`, `market_data_service.py`, `database_service.py`
and `alpaca_service.py`, together with theorems settling the behavioural
claims about it.

Modelling conventions:
* Python floats are modelled as exact rationals (`ℚ`); decimal literals
  such as `0.4` denote the exact rational the source writes.
* A pandas value that may be `NaN` (missing) is modelled as `Option ℚ`,
  with `none` standing for `NaN`; float comparisons against `NaN`
  (which are `False` in Python) are modelled by Bool-valued comparison
  helpers that return `false` when either side is `none`.
* Market data (`get_daily_market_data`) is a DataFrame, modelled as an
  association list from column name (symbol) to its price column.
* The mutable database and the brokerage are modelled by explicit state
  passing: each execution function returns the updated signal, the updated
  database state, the list of orders it submitted, and its Bool result.
-/

namespace Trading

/-! ### Basic numeric helpers (Python / pandas primitives) -/

/-- Python `int(q)` on a float: truncation toward zero. -/
def pyInt (q : ℚ) : ℤ := if 0 ≤ q then ⌊q⌋ else ⌈q⌉

/-- Round half to even on rationals: the integer nearest to `q`, ties to the
even integer (CPython's `round` on exactly representable values). -/
def roundHalfEven (q : ℚ) : ℤ :=
  if q - ⌊q⌋ < 1/2 then ⌊q⌋
  else if (1:ℚ)/2 < q - ⌊q⌋ then ⌊q⌋ + 1
  else if Even ⌊q⌋ then ⌊q⌋ else ⌊q⌋ + 1

/-- Python `round(q, n)` (idealised to exact rational arithmetic). -/
def pyRound (n : ℕ) (q : ℚ) : ℚ := (roundHalfEven (q * 10 ^ n) : ℚ) / 10 ^ n

/-- Strict `>` on possibly-missing floats: comparisons against `NaN` are
`False` in Python. -/
def ogt : Option ℚ → Option ℚ → Bool
  | some a, some b => decide (b < a)
  | _, _ => false

/-- Non-strict `<=` on possibly-missing floats: comparisons against `NaN`
are `False` in Python. -/
def ole : Option ℚ → Option ℚ → Bool
  | some a, some b => decide (a ≤ b)
  | _, _ => false

/-- Series element at Python negative index `-k` (i.e. `iloc[-k]`), for a
column of possibly-missing values. -/
def ilocOpt (xs : List (Option ℚ)) (k : ℕ) : Option ℚ := xs.getD (xs.length - k) none

/-- Series element at Python negative index `-k` (i.e. `iloc[-k]`) for a
fully observed column. -/
def ilocQ (xs : List ℚ) (k : ℕ) : ℚ := xs.getD (xs.length - k) 0

/-- pandas `Series.dropna()`: the subsequence of non-missing observations. -/
def dropna (xs : List (Option ℚ)) : List ℚ := xs.filterMap id

/-- Elementwise difference of two aligned series, `NaN`-propagating. -/
def seriesSub (xs ys : List (Option ℚ)) : List (Option ℚ) :=
  List.zipWith (fun a b => match a, b with
    | some a, some b => some (a - b)
    | _, _ => none) xs ys

/-! ### pandas `ewm(span=s).mean()`

pandas' default is `adjust=True` (and `ignore_na=False`): the value at
position `t` is the weighted mean `(Σ_{i≤t, xᵢ observed} (1-α)^(t-i)·xᵢ) /
(Σ_{i≤t, xᵢ observed} (1-α)^(t-i))` with `α = 2/(span+1)`, and is `NaN`
while no observation has occurred yet.  `ewmGo` carries the running
weighted numerator and denominator. -/

/-- One pass of the adjusted exponentially weighted mean, carrying the
decayed numerator and denominator sums. -/
def ewmGo (a : ℚ) (num den : ℚ) : List (Option ℚ) → List (Option ℚ)
  | [] => []
  | some v :: xs =>
    let num' := (1 - a) * num + v
    let den' := (1 - a) * den + 1
    (if den' = 0 then none else some (num' / den')) :: ewmGo a num' den' xs
  | none :: xs =>
    let num' := (1 - a) * num
    let den' := (1 - a) * den
    (if den' = 0 then none else some (num' / den')) :: ewmGo a num' den' xs

/-- pandas `series.ewm(span=span).mean()` with the library defaults
(`adjust=True`, `ignore_na=False`). -/
def ewm_mean (span : ℕ) (xs : List (Option ℚ)) : List (Option ℚ) :=
  ewmGo (2 / ((span : ℚ) + 1)) 0 0 xs

/-! ### Indicator Engine (`market_data_service.py`) -/

/-- Result frame of `calculate_macd`: the `macd`, `signal` and `histogram`
columns, aligned with the input series. -/
structure MacdData where
  macd : List (Option ℚ)
  signal : List (Option ℚ)
  histogram : List (Option ℚ)
deriving Repr, DecidableEq

/-- `MarketDataService.calculate_macd`: `None` when the series is shorter
than `slow + signal`; otherwise MACD line = EMA_fast − EMA_slow, signal
line = EMA of the MACD line, histogram = MACD − signal. -/
def calculate_macd (price_data : List (Option ℚ)) (fast slow : ℕ) (signal : ℕ) :
    Option MacdData :=
  if price_data.length < slow + signal then none
  else
    let ema_fast := ewm_mean fast price_data
    let ema_slow := ewm_mean slow price_data
    let macd_line := seriesSub ema_fast ema_slow
    let signal_line := ewm_mean signal macd_line
    let histogram := seriesSub macd_line signal_line
    some ⟨macd_line, signal_line, histogram⟩

/-- pandas `series.diff()`: first entry `NaN`, then day-over-day deltas
(`NaN`-propagating). -/
def diffSeries (xs : List (Option ℚ)) : List (Option ℚ) :=
  List.zipWith (fun a b => match a, b with
    | some a, some b => some (a - b)
    | _, _ => none) xs (none :: xs)

/-- `delta.where(delta > 0, 0)`: keep positive deltas, else `0` (a `NaN`
delta fails the comparison and becomes `0`). -/
def gainsOf (d : Option ℚ) : ℚ :=
  match d with
  | some v => if 0 < v then v else 0
  | none => 0

/-- `-delta.where(delta < 0, 0)`: negated negative deltas, else `0`. -/
def lossesOf (d : Option ℚ) : ℚ :=
  match d with
  | some v => if v < 0 then -v else 0
  | none => 0

/-- pandas `series.rolling(window=period).mean()` on a fully observed
series: `NaN` until a full window is available, then the simple mean of
the trailing `period` entries. -/
def rollingMean (period : ℕ) (xs : List ℚ) : List (Option ℚ) :=
  (List.range xs.length).map (fun t =>
    if t + 1 < period then none
    else some ((((xs.drop (t + 1 - period)).take period).sum) / period))

/-- RSI value from an average gain and an average loss.  With float
semantics `avg_loss = 0` makes `RS` infinite and RSI saturate at `100`
(and `0/0` gives `NaN`). -/
def rsiPoint (g l : ℚ) : Option ℚ :=
  if l = 0 then (if g = 0 then none else some 100)
  else some (100 - 100 / (1 + g / l))

/-- Combination of one average gain and one average loss into an RSI
entry (`NaN` while either rolling mean is unavailable). -/
def rsiCombine (g l : Option ℚ) : Option ℚ :=
  match g, l with
  | some g, some l => rsiPoint g l
  | _, _ => none

/-- `MarketDataService.calculate_rsi`: `None` when the series is shorter
than `period + 1`; otherwise the Wilder-style RSI column (simple rolling
means of gains and losses). -/
def calculate_rsi (price_data : List (Option ℚ)) (period : ℕ) :
    Option (List (Option ℚ)) :=
  if price_data.length < period + 1 then none
  else
    let delta := diffSeries price_data
    let gains := delta.map gainsOf
    let losses := delta.map lossesOf
    let avg_gains := rollingMean period gains
    let avg_losses := rollingMean period losses
    some (List.zipWith rsiCombine avg_gains avg_losses)

/-! ### Momentum Ranker (`TradingAlgorithm.calculate_momentum_12_1`) -/

/-- Momentum score of one column, after `dropna`: `None` (the symbol is
skipped) when fewer than 252 observations remain; otherwise
`return_12m - return_1m` exactly as computed in the source (the inner
conditionals are the source's, even though their `else` branches are
unreachable under the 252-observation guard). -/
def momentumScoreOf (prices : List ℚ) : Option ℚ :=
  if prices.length < 252 then none
  else
    let current_price := ilocQ prices 1
    let price_12m_ago := if 252 ≤ prices.length then ilocQ prices 252 else prices.getD 0 0
    let price_1m_ago := if 21 ≤ prices.length then ilocQ prices 21 else ilocQ prices 1
    let return_12m := (current_price - price_12m_ago) / price_12m_ago
    let return_1m := (current_price - price_1m_ago) / price_1m_ago
    some (return_12m - return_1m)

/-- The per-symbol momentum scores in column order (dict insertion order),
before sorting. -/
def momentumScored (md : List (String × List (Option ℚ))) : List (String × ℚ) :=
  md.filterMap (fun c => (momentumScoreOf (dropna c.2)).map (fun v => (c.1, v)))

/-- Descending order on scores, used for `sort_values(ascending=False)`. -/
def scoreGE (a b : String × ℚ) : Prop := b.2 ≤ a.2

instance : DecidableRel scoreGE := fun a b => inferInstanceAs (Decidable (b.2 ≤ a.2))

instance : IsTotal (String × ℚ) scoreGE := ⟨fun a b => le_total b.2 a.2⟩

instance : IsTrans (String × ℚ) scoreGE := ⟨fun _ _ _ h h' => le_trans h' h⟩

/-- `TradingAlgorithm.calculate_momentum_12_1`: scores every column with at
least 252 non-missing observations and sorts descending.  pandas
`sort_values(ascending=False)` is called with its default
`kind='quicksort'` (a numpy introsort), which guarantees a descending
reordering of the scored entries but no particular order among equal
scores (that sort is not stable).  The executable model uses
`insertionSort` as one admissible such reordering; no verified property
depends on the order it gives equal scores. -/
def calculate_momentum_12_1 (md : List (String × List (Option ℚ))) : List (String × ℚ) :=
  List.insertionSort scoreGE (momentumScored md)

/-! ### Signal record and configuration -/

/-- Algorithm parameters read from the environment in
`TradingAlgorithm.__init__`. -/
structure Config where
  max_positions : ℕ
  stop_loss : ℚ
  trading_enabled : Bool
  allow_after_hours : Bool
  relaxed_filters : Bool
deriving Repr, DecidableEq

/-- The duck-typed signal dict.  Buy signals and sell signals populate
different subsets of keys; an absent key is `none`.  `signal_strength` is
`Option ℚ` because with float semantics it can be `NaN`. -/
structure Signal where
  signal_date : ℕ
  symbol : String
  signal_strength : Option ℚ
  momentum_rank : Option ℕ
  momentum_value : Option ℚ
  macd_value : Option ℚ
  rsi_value : Option ℚ
  is_top_momentum : Option Bool
  macd_bullish : Option Bool
  rsi_bullish : Option Bool
  reason : Option String
  current_price : Option ℚ
  entry_price : Option ℚ
  quantity : Option ℤ
  loss_pct : Option ℚ
  current_momentum_rank : Option ℕ
  action_taken : Option String
deriving Repr, DecidableEq

/-- Sort key for `signals.sort(key=..., reverse=True)`.  No claim depends
on the order of the produced signal list (only on its contents), so the
unspecified Python ordering among `NaN` strengths is modelled by an
arbitrary total key (`none ↦ 0`). -/
def strengthKey (s : Signal) : ℚ := s.signal_strength.getD 0

/-- Descending order on signal strength (Python `sort` with `reverse=True`
is stable). -/
def sigGE (a b : Signal) : Prop := strengthKey b ≤ strengthKey a

instance : DecidableRel sigGE := fun a b => inferInstanceAs (Decidable (strengthKey b ≤ strengthKey a))

instance : IsTotal Signal sigGE := ⟨fun a b => le_total (strengthKey b) (strengthKey a)⟩

instance : IsTrans Signal sigGE := ⟨fun _ _ _ h h' => le_trans h' h⟩

/-! ### Technical filters (`check_macd_bullish`, `check_rsi_bullish`) -/

/-- `TradingAlgorithm.check_macd_bullish`: zero-line crossover or positive
momentum on the last two MACD values (`False` on missing values, matching
float `NaN` comparisons). -/
def check_macd_bullish (macd_data : MacdData) : Bool :=
  if macd_data.macd.length < 2 then false
  else
    let current_macd := ilocOpt macd_data.macd 1
    let prev_macd := ilocOpt macd_data.macd 2
    (ogt current_macd (some 0) && ole prev_macd (some 0)) ||
      (ogt current_macd prev_macd && ogt current_macd (some 0))

/-- `TradingAlgorithm.check_rsi_bullish`: 50-crossover or oversold bounce
on the last two RSI values. -/
def check_rsi_bullish (rsi_data : List (Option ℚ)) : Bool :=
  if rsi_data.length < 2 then false
  else
    let current_rsi := ilocOpt rsi_data 1
    let prev_rsi := ilocOpt rsi_data 2
    (ogt current_rsi (some 50) && ole prev_rsi (some 50)) ||
      (ogt current_rsi (some 30) && ole prev_rsi (some 30))

/-! ### Signal Generator (`TradingAlgorithm.generate_daily_signals`) -/

/-- The scored buy-signal dict built in the `filters_ok` branch of
`generate_daily_signals` (momentum 40%, MACD 30%, RSI 30%, the latter two
clamped only from above; `signal_strength` is `NaN` when either last
indicator value is, and the stored strength is `round(·, 4)`). -/
def mkBuySignal (signal_date : ℕ) (top_momentum : List (String × ℚ))
    (c : String × ℚ) (macd_data : MacdData) (rsi_data : List (Option ℚ))
    (macd_bullish rsi_bullish : Bool) : Signal :=
  let momentum_rank := (top_momentum.map Prod.fst).indexOf c.1 + 1
  let momentum_value := (top_momentum.lookup c.1).getD c.2
  let momentum_strength : ℚ := (31 - (momentum_rank : ℚ)) / 30
  let macd_last := ilocOpt macd_data.macd 1
  let rsi_last := ilocOpt rsi_data 1
  let macd_strength := (macd_last.map (fun v => min (|v| / 2) 1))
  let rsi_strength := (rsi_last.map (fun v => min ((v - 50) / 50) 1))
  let signal_strength : Option ℚ :=
    match macd_strength, rsi_strength with
    | some ms, some rs => some (momentum_strength * 0.4 + ms * 0.3 + rs * 0.3)
    | _, _ => none
  { signal_date := signal_date
    symbol := c.1
    signal_strength := signal_strength.map (pyRound 4)
    momentum_rank := some momentum_rank
    momentum_value := some (pyRound 6 momentum_value)
    macd_value := macd_last.map (pyRound 6)
    rsi_value := rsi_last.map (pyRound 2)
    is_top_momentum := some true
    macd_bullish := some macd_bullish
    rsi_bullish := some rsi_bullish
    reason := none
    current_price := none
    entry_price := none
    quantity := none
    loss_pct := none
    current_momentum_rank := none
    action_taken := none }

/-- Processing of one candidate symbol from the top-30 momentum list:
compute indicators (skipping the symbol if either is unavailable), apply
the technical filter, and build the scored buy-signal dict.  The
`Exception → continue` handler in the source corresponds to the `none`
fallthroughs. -/
def processCandidate (cfg : Config) (signal_date : ℕ)
    (md : List (String × List (Option ℚ))) (top_momentum : List (String × ℚ))
    (c : String × ℚ) : Option Signal :=
  match md.lookup c.1 with
  | none => none
  | some prices =>
    match calculate_macd prices 12 26 9, calculate_rsi prices 14 with
    | some macd_data, some rsi_data =>
      let macd_bullish := check_macd_bullish macd_data
      let rsi_bullish := check_rsi_bullish rsi_data
      let filters_ok := (macd_bullish && rsi_bullish) ||
        (cfg.relaxed_filters && (macd_bullish || rsi_bullish))
      if filters_ok then
        some (mkBuySignal signal_date top_momentum c macd_data rsi_data macd_bullish rsi_bullish)
      else none
    | _, _ => none

/-- `TradingAlgorithm.generate_daily_signals`: rank the universe by 12-1
momentum, take the top 30, filter with MACD + RSI, score, and sort the
resulting buy signals by strength descending. -/
def generate_daily_signals (cfg : Config) (signal_date : ℕ)
    (md : List (String × List (Option ℚ))) : List Signal :=
  let momentum_scores := calculate_momentum_12_1 md
  let top_momentum := momentum_scores.take 30
  let signals := top_momentum.filterMap (processCandidate cfg signal_date md top_momentum)
  List.insertionSort sigGE signals

/-! ### Persistence and brokerage state (`database_service.py`, `alpaca_service.py`) -/

/-- Row of the `positions` table (`symbol` is UNIQUE in the schema). -/
structure Position where
  symbol : String
  quantity : ℤ
  entry_price : ℚ
  entry_date : ℕ
deriving Repr, DecidableEq

/-- Row of the `trades` table, as inserted by `log_trade`. -/
structure Trade where
  trade_date : ℕ
  symbol : String
  action : String
  quantity : ℤ
  price : ℚ
  entry_price : Option ℚ
  signal_strength : Option ℚ
  reason : Option String
  pnl : Option ℚ
deriving Repr, DecidableEq

/-- Row of the `daily_signals` table: exactly the columns that
`log_daily_signals` inserts (note: a sell signal's `reason`, prices and
quantity are not among them). -/
structure LoggedSignalRow where
  signal_date : ℕ
  symbol : String
  signal_strength : Option ℚ
  momentum_rank : Option ℕ
  momentum_value : Option ℚ
  macd_value : Option ℚ
  rsi_value : Option ℚ
  is_top_momentum : Bool
  macd_bullish : Bool
  rsi_bullish : Bool
  action_taken : Option String
deriving Repr, DecidableEq

/-- Projection performed by `DatabaseService.log_daily_signals` on each
signal dict (`signal.get(key, default)` for the optional keys). -/
def toLoggedRow (s : Signal) : LoggedSignalRow where
  signal_date := s.signal_date
  symbol := s.symbol
  signal_strength := s.signal_strength
  momentum_rank := s.momentum_rank
  momentum_value := s.momentum_value
  macd_value := s.macd_value
  rsi_value := s.rsi_value
  is_top_momentum := s.is_top_momentum.getD false
  macd_bullish := s.macd_bullish.getD false
  rsi_bullish := s.rsi_bullish.getD false
  action_taken := s.action_taken

/-- Database state threaded through the execution functions. -/
structure DbState where
  positions : List Position
  trades : List Trade
  daily_signals : List LoggedSignalRow
deriving Repr, DecidableEq

/-- `DatabaseService.get_current_positions`: rows with `quantity > 0`.
(The SQL `ORDER BY symbol` only affects presentation order and none of
the verified properties, so it is not modelled.) -/
def get_current_positions (db : DbState) : List Position :=
  db.positions.filter (fun p => 0 < p.quantity)

/-- `DatabaseService.update_position`: `INSERT OR REPLACE` keyed on the
UNIQUE `symbol` column — any existing row for the symbol is replaced. -/
def update_position (db : DbState) (p : Position) : DbState :=
  { db with positions := db.positions.filter (fun q => q.symbol ≠ p.symbol) ++ [p] }

/-- `DatabaseService.remove_position`: `DELETE FROM positions WHERE symbol = ?`. -/
def remove_position (db : DbState) (symbol : String) : DbState :=
  { db with positions := db.positions.filter (fun q => q.symbol ≠ symbol) }

/-- `DatabaseService.log_trade`: append a row to the `trades` table. -/
def log_trade (db : DbState) (t : Trade) : DbState :=
  { db with trades := db.trades ++ [t] }

/-- `DatabaseService.log_daily_signals`: append a projected row per signal. -/
def log_daily_signals (db : DbState) (signals : List Signal) : DbState :=
  { db with daily_signals := db.daily_signals ++ signals.map toLoggedRow }

/-- An order submitted to the brokerage through
`AlpacaService.place_buy_order` / `place_sell_order`. -/
structure SubmittedOrder where
  symbol : String
  quantity : ℤ
  side : String
  order_type : String
  limit_price : Option ℚ
deriving Repr, DecidableEq

/-- Brokerage reply to an order submission. -/
structure OrderResult where
  success : Bool
  error : Option String
deriving Repr, DecidableEq

/-- The external collaborators as oracles: account value and extended-hours
flag of the Alpaca adapter, the current-price feed, and the brokerage's
response to each submitted order. -/
structure Env where
  account_value : ℚ
  extended_hours : Bool
  currentPrice : String → Option ℚ
  orderOutcome : SubmittedOrder → OrderResult

/-! ### Position Reviewer (`TradingAlgorithm.check_sell_signals`) -/

/-- Sell-signal evaluation of one held position: skip when no current
price; stop-loss check first (`continue` on trigger — the momentum-exit
check is skipped); otherwise momentum-exit when the symbol left the top
30, with its current rank (999 when unranked). -/
def reviewPosition (cfg : Config) (env : Env) (signal_date : ℕ)
    (momentum_scores : List (String × ℚ)) (top_30_symbols : List String)
    (pos : Position) : Option Signal :=
  match env.currentPrice pos.symbol with
  | none => none
  | some current_price =>
    let loss_pct := (pos.entry_price - current_price) / pos.entry_price
    if cfg.stop_loss ≤ loss_pct then
      some {
        signal_date := signal_date
        symbol := pos.symbol
        signal_strength := some 1
        momentum_rank := none
        momentum_value := none
        macd_value := none
        rsi_value := none
        is_top_momentum := none
        macd_bullish := none
        rsi_bullish := none
        reason := some "stop_loss"
        current_price := some current_price
        entry_price := some pos.entry_price
        quantity := some pos.quantity
        loss_pct := some (pyRound 2 (loss_pct * 100))
        current_momentum_rank := none
        action_taken := none }
    else if pos.symbol ∉ top_30_symbols then
      let current_rank := if pos.symbol ∈ momentum_scores.map Prod.fst
        then (momentum_scores.map Prod.fst).indexOf pos.symbol + 1 else 999
      some {
        signal_date := signal_date
        symbol := pos.symbol
        signal_strength := some 0.8
        momentum_rank := none
        momentum_value := none
        macd_value := none
        rsi_value := none
        is_top_momentum := none
        macd_bullish := none
        rsi_bullish := none
        reason := some "momentum_exit"
        current_price := some current_price
        entry_price := some pos.entry_price
        quantity := some pos.quantity
        loss_pct := none
        current_momentum_rank := some current_rank
        action_taken := none }
    else none

/-- `TradingAlgorithm.check_sell_signals`: review every current position
against the stop-loss and momentum-exit rules, then sort by signal
strength descending. -/
def check_sell_signals (cfg : Config) (env : Env) (signal_date : ℕ)
    (db : DbState) (md : List (String × List (Option ℚ))) : List Signal :=
  let momentum_scores := calculate_momentum_12_1 md
  let top_30_symbols := (momentum_scores.take 30).map Prod.fst
  let sell_signals := (get_current_positions db).filterMap
    (reviewPosition cfg env signal_date momentum_scores top_30_symbols)
  List.insertionSort sigGE sell_signals

/-! ### Execution Coordinator (`execute_buy_order`, `execute_sell_order`,
and steps 3–4 of `run_daily_algorithm`) -/

/-- Result of one execution call: the signal with its `action_taken` tag,
the database state, the orders submitted to the brokerage, and the Bool
the Python function returns. -/
structure ExecResult where
  signal : Signal
  db : DbState
  orders : List SubmittedOrder
  ok : Bool
deriving Repr

/-- `TradingAlgorithm.execute_buy_order`.  Guard order as in the source:
trading-enabled flag, duplicate holding, position cap, sizing from
`account_value / max_positions`, price availability, positive quantity,
then the brokerage call; on success the trade is logged and the position
opened, on brokerage rejection nothing is persisted. -/
def execute_buy_order (cfg : Config) (env : Env) (db : DbState) (signal : Signal) :
    ExecResult :=
  if !cfg.trading_enabled then
    ⟨{ signal with action_taken := some "trading_disabled" }, db, [], false⟩
  else
    let symbol := signal.symbol
    let current_positions := get_current_positions db
    if current_positions.any (fun pos => pos.symbol == symbol) then
      ⟨{ signal with action_taken := some "already_owned" }, db, [], false⟩
    else if cfg.max_positions ≤ current_positions.length then
      ⟨{ signal with action_taken := some "max_positions" }, db, [], false⟩
    else
      let position_value := env.account_value / (cfg.max_positions : ℚ)
      match env.currentPrice symbol with
      | none => ⟨{ signal with action_taken := some "no_price" }, db, [], false⟩
      | some current_price =>
        let quantity := pyInt (position_value / current_price)
        if quantity ≤ 0 then
          ⟨{ signal with action_taken := some "insufficient_funds" }, db, [], false⟩
        else
          let order : SubmittedOrder :=
            if env.extended_hours then
              { symbol := symbol, quantity := quantity, side := "buy",
                order_type := "limit",
                limit_price := some (pyRound 2 (max (current_price * 1.005) (current_price + 0.50))) }
            else
              { symbol := symbol, quantity := quantity, side := "buy",
                order_type := "market", limit_price := none }
          let order_result := env.orderOutcome order
          if order_result.success then
            let db1 := log_trade db {
              trade_date := signal.signal_date
              symbol := symbol
              action := "BUY"
              quantity := quantity
              price := current_price
              entry_price := none
              signal_strength := signal.signal_strength
              reason := some "algorithm"
              pnl := none }
            let db2 := update_position db1 {
              symbol := symbol
              quantity := quantity
              entry_price := current_price
              entry_date := signal.signal_date }
            ⟨{ signal with action_taken := some "bought" }, db2, [order], true⟩
          else
            ⟨{ signal with action_taken := some "order_failed" }, db, [order], false⟩

/-- `TradingAlgorithm.execute_sell_order`.  A missing `quantity`,
`entry_price` or `current_price` key raises `KeyError` before any order is
placed and the handler tags the signal `error`; a missing `reason` key
raises after the order succeeded but before the trade is logged. -/
def execute_sell_order (cfg : Config) (env : Env) (db : DbState) (signal : Signal) :
    ExecResult :=
  if !cfg.trading_enabled then
    ⟨{ signal with action_taken := some "trading_disabled" }, db, [], false⟩
  else
    match signal.quantity, signal.entry_price, signal.current_price with
    | some quantity, some entry_price, some current_price =>
      let symbol := signal.symbol
      let order : SubmittedOrder :=
        if env.extended_hours then
          { symbol := symbol, quantity := quantity, side := "sell",
            order_type := "limit",
            limit_price := some (pyRound 2 (min (current_price * 0.995) (current_price - 0.50))) }
        else
          { symbol := symbol, quantity := quantity, side := "sell",
            order_type := "market", limit_price := none }
      let order_result := env.orderOutcome order
      if order_result.success then
        match signal.reason with
        | some reason =>
          let pnl := (current_price - entry_price) * quantity
          let db1 := log_trade db {
            trade_date := signal.signal_date
            symbol := symbol
            action := "SELL"
            quantity := quantity
            price := current_price
            entry_price := some entry_price
            signal_strength := none
            reason := some reason
            pnl := some pnl }
          let db2 := remove_position db1 symbol
          ⟨{ signal with action_taken := some "sold" }, db2, [order], true⟩
        | none => ⟨{ signal with action_taken := some "error" }, db, [order], false⟩
      else
        ⟨{ signal with action_taken := some "order_failed" }, db, [order], false⟩
    | _, _, _ => ⟨{ signal with action_taken := some "error" }, db, [], false⟩

/-- Fold one execution function over a list of signals, threading the
database state and collecting the updated signals, the submitted orders
and the count of successful executions. -/
def executeAll (f : DbState → Signal → ExecResult) (db : DbState) :
    List Signal → List Signal × DbState × List SubmittedOrder × ℕ
  | [] => ([], db, [], 0)
  | s :: rest =>
    let r := f db s
    let (sigs, db', orders, n) := executeAll f r.db rest
    (r.signal :: sigs, db', r.orders ++ orders, (if r.ok then 1 else 0) + n)

/-- Steps 3–4 of `TradingAlgorithm.run_daily_algorithm`: when trading is
enabled execute all sell orders first and then all buy orders; otherwise
skip execution entirely; then log every (possibly updated) signal, buys
before sells, via `log_daily_signals` (skipped when there are none). -/
def runExecutionAndLogging (cfg : Config) (env : Env) (db : DbState)
    (buy_signals sell_signals : List Signal) :
    DbState × List SubmittedOrder × ℕ :=
  let (sells', db1, sellOrders, nSell) :=
    if cfg.trading_enabled then executeAll (execute_sell_order cfg env) db sell_signals
    else (sell_signals, db, [], 0)
  let (buys', db2, buyOrders, nBuy) :=
    if cfg.trading_enabled then executeAll (execute_buy_order cfg env) db1 buy_signals
    else (buy_signals, db1, [], 0)
  let all_signals := buys' ++ sells'
  let db3 := if all_signals.isEmpty then db2 else log_daily_signals db2 all_signals
  (db3, sellOrders ++ buyOrders, nSell + nBuy)

/-! ## Theorems -/

/-! ### C8: insufficient-data guards of the Indicator Engine -/

/-- C8.  The MACD computation returns no result exactly when the price
series is shorter than `slow + signal` (35 with the defaults 26 + 9), and
the RSI computation returns no result exactly when the series is shorter
than `period + 1` (15 with the default 14); in all other cases both
return a result (no exception is modelled: the computation is total). -/
theorem macd_rsi_insufficient_data_guards
    (price_data : List (Option ℚ)) (fast slow : ℕ) (signal : ℕ) (period : ℕ) :
    (calculate_macd price_data fast slow signal = none ↔
      price_data.length < slow + signal) ∧
    (calculate_rsi price_data period = none ↔ price_data.length < period + 1) := by
  constructor
  · constructor
    · intro h
      by_contra hlen
      rw [calculate_macd, if_neg hlen] at h
      exact Option.some_ne_none _ h
    · intro h
      simp only [calculate_macd, if_pos h]
  · constructor
    · intro h
      by_contra hlen
      rw [calculate_rsi, if_neg hlen] at h
      exact Option.some_ne_none _ h
    · intro h
      simp only [calculate_rsi, if_pos h]

/-! ### C2: behaviour when trading is globally disabled -/

/-- Baseline signal dict with only the always-present buy keys. -/
def blankSignal : Signal :=
  ⟨0, "X", some (1/2), none, none, none, none, none, none, none, none,
   none, none, none, none, none, none⟩

/-- Concrete disabled configuration. -/
def disabledConfig : Config := ⟨15, 7/100, false, false, false⟩

/-- Concrete environment for closed evaluations. -/
def nullEnv : Env := ⟨0, false, fun _ => none, fun _ => ⟨false, none⟩⟩

/-- Concrete empty database state. -/
def emptyDb : DbState := ⟨[], [], []⟩

/-- C2 (counterexample).  With trading disabled, a run (steps 3–4 of
`run_daily_algorithm`) never calls the execute functions, so the persisted
signal keeps `action_taken = None`: it is not tagged `trading_disabled`
as the claim states. -/
theorem run_disabled_leaves_action_taken_unset_counterexample :
    ((runExecutionAndLogging disabledConfig nullEnv emptyDb [blankSignal] []).1.daily_signals.map
      (fun r => r.action_taken) = [none]) ∧
    (none : Option String) ≠ some "trading_disabled" := by
  constructor
  · rfl
  · simp

/-- C2 (amended).  When `trading_enabled` is false the run submits no
order and executes no trade, and all signals are persisted (projected to
the `daily_signals` columns) with their `action_taken` unchanged — in
particular still unset, not tagged `trading_disabled`; the
`trading_disabled` tag is produced only by a direct call to
`execute_buy_order` / `execute_sell_order`, which then leaves the
database untouched and submits nothing. -/
theorem run_disabled_no_orders_signals_persisted (cfg : Config) (env : Env)
    (db : DbState) (buys sells : List Signal)
    (hdis : cfg.trading_enabled = false) :
    (runExecutionAndLogging cfg env db buys sells).1.trades = db.trades ∧
    (runExecutionAndLogging cfg env db buys sells).1.positions = db.positions ∧
    (runExecutionAndLogging cfg env db buys sells).1.daily_signals =
      db.daily_signals ++ (buys ++ sells).map toLoggedRow ∧
    (runExecutionAndLogging cfg env db buys sells).2.1 = [] ∧
    (runExecutionAndLogging cfg env db buys sells).2.2 = 0 ∧
    (∀ s ∈ buys ++ sells, (toLoggedRow s).action_taken = s.action_taken) ∧
    (∀ s, (execute_buy_order cfg env db s).signal.action_taken = some "trading_disabled" ∧
      (execute_buy_order cfg env db s).db = db ∧
      (execute_buy_order cfg env db s).orders = []) ∧
    (∀ s, (execute_sell_order cfg env db s).signal.action_taken = some "trading_disabled" ∧
      (execute_sell_order cfg env db s).db = db ∧
      (execute_sell_order cfg env db s).orders = []) := by
  have hrun : runExecutionAndLogging cfg env db buys sells =
      ((if (buys ++ sells).isEmpty then db else log_daily_signals db (buys ++ sells)), [], 0) := by
    simp [runExecutionAndLogging, hdis]
  refine ⟨?_, ?_, ?_, ?_, ?_, ?_, ?_, ?_⟩
  · rw [hrun]
    by_cases h : (buys ++ sells).isEmpty
    · simp [h]
    · simp [h, log_daily_signals]
  · rw [hrun]
    by_cases h : (buys ++ sells).isEmpty
    · simp [h]
    · simp [h, log_daily_signals]
  · rw [hrun]
    by_cases h : (buys ++ sells).isEmpty
    · rw [List.isEmpty_iff] at h
      simp [h]
    · simp [h, log_daily_signals]
  · rw [hrun]
  · rw [hrun]
  · intro s _
    rfl
  · intro s
    refine ⟨?_, ?_, ?_⟩ <;> simp [execute_buy_order, hdis]
  · intro s
    refine ⟨?_, ?_, ?_⟩ <;> simp [execute_sell_order, hdis]

/-- C2 witness: the amended theorem applied at a concrete disabled
configuration. -/
theorem run_disabled_no_orders_signals_persisted_witness :
    disabledConfig.trading_enabled = false ∧
    ((runExecutionAndLogging disabledConfig nullEnv emptyDb [blankSignal] []).2.1 = []) :=
  ⟨rfl, (run_disabled_no_orders_signals_persisted disabledConfig nullEnv emptyDb
    [blankSignal] [] rfl).2.2.2.1⟩

/-! ### C7: buy-order portfolio constraints and sizing -/

/-- Concrete enabled configuration. -/
def enabledConfig : Config := ⟨15, 7/100, true, false, false⟩

/-- C7.  With trading enabled (and a positive position cap, ruling out the
`ZeroDivisionError` path), `execute_buy_order` rejects in order: an
existing position in the symbol (`already_owned`), a full book
(`max_positions` — compared against the configured cap), an unavailable
price (`no_price`), and a non-positive computed quantity
(`insufficient_funds`); each rejection leaves the database unchanged and
submits no order.  The target order value is
`account_value / max_positions` and any submitted order carries quantity
`int(target / price)`, which is `⌊target / price⌋` whenever the ratio is
non-negative. -/
theorem execute_buy_order_constraint_checks (cfg : Config) (env : Env)
    (db : DbState) (signal : Signal)
    (hen : cfg.trading_enabled = true) (hmax : 0 < cfg.max_positions) :
    (((get_current_positions db).any (fun p => p.symbol == signal.symbol) = true) →
      execute_buy_order cfg env db signal =
        ⟨{ signal with action_taken := some "already_owned" }, db, [], false⟩) ∧
    (((get_current_positions db).any (fun p => p.symbol == signal.symbol) = false) →
      cfg.max_positions ≤ (get_current_positions db).length →
      execute_buy_order cfg env db signal =
        ⟨{ signal with action_taken := some "max_positions" }, db, [], false⟩) ∧
    (((get_current_positions db).any (fun p => p.symbol == signal.symbol) = false) →
      (get_current_positions db).length < cfg.max_positions →
      env.currentPrice signal.symbol = none →
      execute_buy_order cfg env db signal =
        ⟨{ signal with action_taken := some "no_price" }, db, [], false⟩) ∧
    (∀ cp : ℚ,
      ((get_current_positions db).any (fun p => p.symbol == signal.symbol) = false) →
      (get_current_positions db).length < cfg.max_positions →
      env.currentPrice signal.symbol = some cp →
      pyInt (env.account_value / (cfg.max_positions : ℚ) / cp) ≤ 0 →
      execute_buy_order cfg env db signal =
        ⟨{ signal with action_taken := some "insufficient_funds" }, db, [], false⟩) ∧
    (∀ cp : ℚ,
      ((get_current_positions db).any (fun p => p.symbol == signal.symbol) = false) →
      (get_current_positions db).length < cfg.max_positions →
      env.currentPrice signal.symbol = some cp →
      0 < pyInt (env.account_value / (cfg.max_positions : ℚ) / cp) →
      (execute_buy_order cfg env db signal).orders.map (fun o => o.quantity) =
        [pyInt (env.account_value / (cfg.max_positions : ℚ) / cp)]) ∧
    (∀ q : ℚ, 0 ≤ q → pyInt q = ⌊q⌋) := by
  refine ⟨?_, ?_, ?_, ?_, ?_, ?_⟩
  · intro howned
    simp [execute_buy_order, hen, howned]
  · intro howned hfull
    simp [execute_buy_order, hen, howned, Nat.not_lt.mpr hfull, hfull]
  · intro howned hroom hprice
    simp [execute_buy_order, hen, howned, Nat.lt_iff_add_one_le.mp hroom,
      Nat.not_le.mpr hroom, hprice]
  · intro cp howned hroom hprice hqty
    simp [execute_buy_order, hen, howned, Nat.not_le.mpr hroom, hprice, hqty]
  · intro cp howned hroom hprice hqty
    have hq : ¬ pyInt (env.account_value / (cfg.max_positions : ℚ) / cp) ≤ 0 :=
      not_le.mpr hqty
    by_cases hext : env.extended_hours <;>
      simp [execute_buy_order, hen, howned, Nat.not_le.mpr hroom, hprice, hq, hext] <;>
      rcases (env.orderOutcome _).success with _ | _ <;> simp
  · intro q hq
    simp [pyInt, hq]

/-- C7 witness: the constraint theorem applied to a concrete enabled
configuration, database and environment. -/
theorem execute_buy_order_constraint_checks_witness :
    enabledConfig.trading_enabled = true ∧ 0 < enabledConfig.max_positions ∧
    (∀ q : ℚ, 0 ≤ q → pyInt q = ⌊q⌋) :=
  ⟨rfl, by decide,
    (execute_buy_order_constraint_checks enabledConfig nullEnv emptyDb blankSignal
      rfl (by decide)).2.2.2.2.2⟩

/-! ### C10: brokerage rejection leaves persistent state unchanged -/

/-- C10.  When the brokerage rejects orders (`success = false`), both
execution functions return `false` and leave the database (trades and
positions) untouched, and whenever an order was actually submitted the
signal is tagged `order_failed`. -/
theorem order_rejection_preserves_state (cfg : Config) (env : Env)
    (db : DbState) (signal : Signal)
    (hrej : ∀ o, (env.orderOutcome o).success = false) :
    (execute_buy_order cfg env db signal).db = db ∧
    (execute_buy_order cfg env db signal).ok = false ∧
    ((execute_buy_order cfg env db signal).orders ≠ [] →
      (execute_buy_order cfg env db signal).signal.action_taken = some "order_failed") ∧
    (execute_sell_order cfg env db signal).db = db ∧
    (execute_sell_order cfg env db signal).ok = false ∧
    ((execute_sell_order cfg env db signal).orders ≠ [] →
      (execute_sell_order cfg env db signal).signal.action_taken = some "order_failed") := by
  have hbuy : (execute_buy_order cfg env db signal).db = db ∧
      (execute_buy_order cfg env db signal).ok = false ∧
      ((execute_buy_order cfg env db signal).orders ≠ [] →
        (execute_buy_order cfg env db signal).signal.action_taken = some "order_failed") := by
    unfold execute_buy_order
    by_cases h1 : cfg.trading_enabled
    · by_cases h2 : (get_current_positions db).any (fun p => p.symbol == signal.symbol)
      · simp [h1, h2]
      · by_cases h3 : cfg.max_positions ≤ (get_current_positions db).length
        · simp [h1, h2, h3]
        · cases hp : env.currentPrice signal.symbol with
          | none => simp [h1, h2, h3, hp]
          | some cp =>
            by_cases hq : pyInt (env.account_value / (cfg.max_positions : ℚ) / cp) ≤ 0
            · simp [h1, h2, h3, hp, hq]
            · simp [h1, h2, h3, hp, hq, hrej]
    · simp [h1]
  have hsell : (execute_sell_order cfg env db signal).db = db ∧
      (execute_sell_order cfg env db signal).ok = false ∧
      ((execute_sell_order cfg env db signal).orders ≠ [] →
        (execute_sell_order cfg env db signal).signal.action_taken = some "order_failed") := by
    unfold execute_sell_order
    by_cases h1 : cfg.trading_enabled
    · cases hq : signal.quantity <;> cases hep : signal.entry_price <;>
        cases hcp : signal.current_price <;> simp [h1, hq, hep, hcp, hrej]
    · simp [h1]
  exact ⟨hbuy.1, hbuy.2.1, hbuy.2.2, hsell.1, hsell.2.1, hsell.2.2⟩

/-- C10 witness: the rejection theorem applied at a concrete
always-rejecting environment. -/
theorem order_rejection_preserves_state_witness :
    (∀ o, (nullEnv.orderOutcome o).success = false) ∧
    (execute_buy_order enabledConfig nullEnv emptyDb blankSignal).db = emptyDb :=
  ⟨fun _ => rfl,
    (order_rejection_preserves_state enabledConfig nullEnv emptyDb blankSignal
      (fun _ => rfl)).1⟩

/-! ### Characterisation of candidate processing -/

/-- `processCandidate` yields a signal exactly when both indicators are
available and the technical filter passes, and the signal is the scored
record. -/
lemma processCandidate_eq_some_iff (cfg : Config) (d : ℕ)
    (md : List (String × List (Option ℚ))) (top : List (String × ℚ))
    (c : String × ℚ) (sig : Signal) :
    processCandidate cfg d md top c = some sig ↔
    ∃ prices macd_data rsi_data,
      md.lookup c.1 = some prices ∧
      calculate_macd prices 12 26 9 = some macd_data ∧
      calculate_rsi prices 14 = some rsi_data ∧
      ((check_macd_bullish macd_data && check_rsi_bullish rsi_data) ||
        (cfg.relaxed_filters && (check_macd_bullish macd_data || check_rsi_bullish rsi_data))) = true ∧
      sig = mkBuySignal d top c macd_data rsi_data
        (check_macd_bullish macd_data) (check_rsi_bullish rsi_data) := by
  constructor
  · intro h
    unfold processCandidate at h
    cases hl : List.lookup c.1 md with
    | none =>
      rw [hl] at h
      exact absurd h (by simp)
    | some prices =>
      rw [hl] at h
      cases hm : calculate_macd prices 12 26 9 with
      | none =>
        simp only [hm] at h
        exact absurd h (by simp)
      | some macd_data =>
        cases hr : calculate_rsi prices 14 with
        | none =>
          simp only [hm, hr] at h
          exact absurd h (by simp)
        | some rsi_data =>
          simp only [hm, hr] at h
          by_cases hf : ((check_macd_bullish macd_data && check_rsi_bullish rsi_data) ||
              (cfg.relaxed_filters &&
                (check_macd_bullish macd_data || check_rsi_bullish rsi_data))) = true
          · rw [if_pos hf] at h
            exact ⟨prices, macd_data, rsi_data, rfl, hm, hr, hf, (Option.some.inj h).symm⟩
          · rw [if_neg hf] at h
            cases h
  · rintro ⟨p, m, r, hp, hm2, hr2, hf2, hsig⟩
    unfold processCandidate
    rw [hp]
    simp only [hm2, hr2]
    rw [if_pos hf2, hsig]

/-- Any signal produced for a candidate carries that candidate's symbol. -/
lemma processCandidate_symbol {cfg : Config} {d : ℕ}
    {md : List (String × List (Option ℚ))} {top : List (String × ℚ)}
    {c : String × ℚ} {sig : Signal}
    (h : processCandidate cfg d md top c = some sig) : sig.symbol = c.1 := by
  obtain ⟨_, _, _, _, _, _, _, hsig⟩ := (processCandidate_eq_some_iff cfg d md top c sig).mp h
  rw [hsig]
  rfl

/-! ### C9: at most 30 candidate evaluations, at most 30 buy signals -/

/-- C9.  The Signal Generator evaluates exactly the candidates in
`momentum_scores.head(30)` — at most 30, and all qualifying symbols when
fewer than 30 qualify — and hence emits at most 30 buy signals, all drawn
from those candidates, regardless of universe size. -/
theorem signal_generator_top30_bound (cfg : Config) (d : ℕ)
    (md : List (String × List (Option ℚ))) :
    ((calculate_momentum_12_1 md).take 30).length ≤ 30 ∧
    (generate_daily_signals cfg d md).length ≤
      ((calculate_momentum_12_1 md).take 30).length ∧
    (generate_daily_signals cfg d md).length ≤ 30 ∧
    (∀ sig ∈ generate_daily_signals cfg d md,
      sig.symbol ∈ ((calculate_momentum_12_1 md).take 30).map Prod.fst) ∧
    ((calculate_momentum_12_1 md).length ≤ 30 →
      (calculate_momentum_12_1 md).take 30 = calculate_momentum_12_1 md) := by
  have hperm : List.Perm (generate_daily_signals cfg d md)
      (((calculate_momentum_12_1 md).take 30).filterMap
        (processCandidate cfg d md ((calculate_momentum_12_1 md).take 30))) := by
    unfold generate_daily_signals
    exact List.perm_insertionSort sigGE _
  have hlen1 : ((calculate_momentum_12_1 md).take 30).length ≤ 30 := by
    simp [List.length_take]
  have hlen2 : (generate_daily_signals cfg d md).length ≤
      ((calculate_momentum_12_1 md).take 30).length := by
    rw [hperm.length_eq]
    exact List.length_filterMap_le _ _
  refine ⟨hlen1, hlen2, le_trans hlen2 hlen1, ?_, ?_⟩
  · intro sig hsig
    have hmem := hperm.mem_iff.mp hsig
    obtain ⟨c, hc, hpc⟩ := List.mem_filterMap.mp hmem
    exact (processCandidate_symbol hpc) ▸ List.mem_map_of_mem Prod.fst hc
  · intro hle
    exact List.take_of_length_le hle

/-! ### Keyed filterMap lemmas (one output per distinct key) -/

/-- If a key does not occur in the input, no output of the keyed
`filterMap` has it. -/
lemma filterMap_keyed_filter_eq_nil {α β : Type} (l : List α) (f : α → Option β)
    (ka : α → String) (kb : β → String)
    (hf : ∀ a b, f a = some b → kb b = ka a)
    (s : String) (hs : s ∉ l.map ka) :
    (l.filterMap f).filter (fun x => kb x == s) = [] := by
  refine List.filter_eq_nil_iff.mpr ?_
  intro b hb
  obtain ⟨a, ha, hab⟩ := List.mem_filterMap.mp hb
  have hba : kb b = ka a := hf a b hab
  simp only [hba]
  intro hcon
  have heq : ka a = s := by simpa using hcon
  exact hs (heq ▸ List.mem_map_of_mem ka ha)

/-- With pairwise-distinct keys, at most one output of a keyed `filterMap`
carries any given key. -/
lemma filterMap_keyed_filter_length_le_one {α β : Type} (l : List α) (f : α → Option β)
    (ka : α → String) (kb : β → String)
    (hf : ∀ a b, f a = some b → kb b = ka a)
    (hnd : (l.map ka).Nodup) (s : String) :
    ((l.filterMap f).filter (fun x => kb x == s)).length ≤ 1 := by
  induction l with
  | nil => simp
  | cons a l ih =>
    have hnd' : (l.map ka).Nodup := (List.nodup_cons.mp (by simpa using hnd)).2
    have hhead : ka a ∉ l.map ka := (List.nodup_cons.mp (by simpa using hnd)).1
    have hf' : ∀ a b, f a = some b → kb b = ka a := fun x y h => hf x y h
    cases hfa : f a with
    | none =>
      simp only [List.filterMap_cons, hfa]
      exact ih hnd'
    | some b =>
      simp only [List.filterMap_cons, hfa, List.filter_cons]
      by_cases hbs : (kb b == s) = true
      · rw [if_pos hbs]
        have hsa : s = ka a := by
          have : kb b = s := by simpa using hbs
          rw [← this, hf a b hfa]
        have : (l.filterMap f).filter (fun x => kb x == s) = [] := by
          refine filterMap_keyed_filter_eq_nil l f ka kb hf' s ?_
          rw [hsa]
          exact hhead
        simp [this]
      · rw [if_neg hbs]
        exact ih hnd'

/-- With pairwise-distinct keys, the outputs keyed by `ka a` are exactly
the one produced from `a`. -/
lemma filterMap_keyed_filter_eq_singleton {α β : Type} (l : List α) (f : α → Option β)
    (ka : α → String) (kb : β → String)
    (hf : ∀ a b, f a = some b → kb b = ka a)
    (hnd : (l.map ka).Nodup) {a : α} {b : β}
    (ha : a ∈ l) (hb : f a = some b) :
    (l.filterMap f).filter (fun x => kb x == ka a) = [b] := by
  induction l with
  | nil => cases ha
  | cons a0 l ih =>
    have hnd' : (l.map ka).Nodup := (List.nodup_cons.mp (by simpa using hnd)).2
    have hhead : ka a0 ∉ l.map ka := (List.nodup_cons.mp (by simpa using hnd)).1
    rcases List.mem_cons.mp ha with rfl | hal
    · simp only [List.filterMap_cons, hb, List.filter_cons]
      rw [if_pos (by simp [hf a b hb])]
      have : (l.filterMap f).filter (fun x => kb x == ka a) = [] :=
        filterMap_keyed_filter_eq_nil l f ka kb hf (ka a) hhead
      simp [this]
    · have hne : ka a0 ≠ ka a := by
        intro hcon
        exact hhead (hcon ▸ List.mem_map_of_mem ka hal)
      cases hfa : f a0 with
      | none =>
        simp only [List.filterMap_cons, hfa]
        exact ih hnd' hal
      | some b0 =>
        simp only [List.filterMap_cons, hfa, List.filter_cons]
        rw [if_neg (by simp [hf a0 b0 hfa, hne])]
        exact ih hnd' hal

/-! ### C1: stop-loss precedence and one sell signal per held symbol -/

/-- Any sell signal produced for a position carries that position's
symbol. -/
lemma reviewPosition_symbol {cfg : Config} {env : Env} {d : ℕ}
    {ms : List (String × ℚ)} {t30 : List String} {pos : Position} {sig : Signal}
    (h : reviewPosition cfg env d ms t30 pos = some sig) : sig.symbol = pos.symbol := by
  unfold reviewPosition at h
  cases hp : env.currentPrice pos.symbol with
  | none => rw [hp] at h; cases h
  | some cp =>
    rw [hp] at h
    dsimp only at h
    by_cases h1 : cfg.stop_loss ≤ (pos.entry_price - cp) / pos.entry_price
    · rw [if_pos h1] at h
      rw [← Option.some.inj h]
    · rw [if_neg h1] at h
      by_cases h2 : pos.symbol ∉ t30
      · rw [if_pos h2] at h
        rw [← Option.some.inj h]
      · rw [if_neg h2] at h
        cases h

/-- When the stop-loss condition holds, the review of that position
produces exactly the stop-loss signal (the momentum-exit branch is never
reached). -/
lemma reviewPosition_stop_loss (cfg : Config) (env : Env) (d : ℕ)
    (ms : List (String × ℚ)) (t30 : List String) (pos : Position) (cp : ℚ)
    (hp : env.currentPrice pos.symbol = some cp)
    (hl : cfg.stop_loss ≤ (pos.entry_price - cp) / pos.entry_price) :
    reviewPosition cfg env d ms t30 pos = some {
      signal_date := d
      symbol := pos.symbol
      signal_strength := some 1
      momentum_rank := none
      momentum_value := none
      macd_value := none
      rsi_value := none
      is_top_momentum := none
      macd_bullish := none
      rsi_bullish := none
      reason := some "stop_loss"
      current_price := some cp
      entry_price := some pos.entry_price
      quantity := some pos.quantity
      loss_pct := some (pyRound 2 ((pos.entry_price - cp) / pos.entry_price * 100))
      current_momentum_rank := none
      action_taken := none } := by
  unfold reviewPosition
  rw [hp]
  dsimp only
  rw [if_pos hl]

/-- C1.  Over positions with pairwise-distinct symbols (the `positions`
table has a UNIQUE symbol column): at most one sell signal is produced per
symbol in a run, and whenever the stop-loss condition
`stop_loss_threshold ≤ (entry − current)/entry` holds for a reviewed
position, the signals for that symbol are exactly one with reason
`stop_loss` and strength 1.0 — the momentum-exit check contributes
nothing for it. -/
theorem stop_loss_precedence_and_sell_uniqueness (cfg : Config) (env : Env)
    (d : ℕ) (db : DbState) (md : List (String × List (Option ℚ)))
    (hnd : ((get_current_positions db).map Position.symbol).Nodup) :
    (∀ s : String,
      ((check_sell_signals cfg env d db md).filter (fun g => g.symbol == s)).length ≤ 1) ∧
    (∀ pos ∈ get_current_positions db, ∀ cp : ℚ,
      env.currentPrice pos.symbol = some cp →
      cfg.stop_loss ≤ (pos.entry_price - cp) / pos.entry_price →
      ((check_sell_signals cfg env d db md).filter
        (fun g => g.symbol == pos.symbol)).map (fun g => (g.reason, g.signal_strength)) =
        [(some "stop_loss", some (1:ℚ))]) := by
  have hfsym : ∀ p sig,
      reviewPosition cfg env d (calculate_momentum_12_1 md)
        (((calculate_momentum_12_1 md).take 30).map Prod.fst) p = some sig →
      sig.symbol = p.symbol := fun p sig h => reviewPosition_symbol h
  have hperm : List.Perm (check_sell_signals cfg env d db md)
      ((get_current_positions db).filterMap
        (reviewPosition cfg env d (calculate_momentum_12_1 md)
          (((calculate_momentum_12_1 md).take 30).map Prod.fst))) := by
    unfold check_sell_signals
    exact List.perm_insertionSort sigGE _
  constructor
  · intro s
    rw [(hperm.filter (fun g => g.symbol == s)).length_eq]
    exact filterMap_keyed_filter_length_le_one _ _ Position.symbol Signal.symbol hfsym hnd s
  · intro pos hpos cp hp hl
    have hb := reviewPosition_stop_loss cfg env d (calculate_momentum_12_1 md)
      (((calculate_momentum_12_1 md).take 30).map Prod.fst) pos cp hp hl
    have hfilter := filterMap_keyed_filter_eq_singleton _ _ Position.symbol Signal.symbol
      hfsym hnd hpos hb
    have hpermf := hperm.filter (fun g => g.symbol == pos.symbol)
    rw [hfilter] at hpermf
    rw [List.perm_singleton.mp hpermf]
    rfl

/-- Concrete database with one held position for the C1 witness. -/
def oneLossPositionDb : DbState := ⟨[⟨"P", 5, 100, 0⟩], [], []⟩

/-- Concrete environment quoting 80 for every symbol (a 20% loss against
entry 100). -/
def lossPriceEnv : Env := ⟨0, false, fun _ => some 80, fun _ => ⟨false, none⟩⟩

/-- C1 witness: the theorem applied to one held position with a 20% loss,
whose review yields exactly the stop-loss signal. -/
theorem stop_loss_precedence_witness :
    ((get_current_positions oneLossPositionDb).map Position.symbol).Nodup ∧
    ((check_sell_signals enabledConfig lossPriceEnv 0 oneLossPositionDb []).filter
      (fun g => g.symbol == "P")).length ≤ 1 :=
  ⟨by decide,
    (stop_loss_precedence_and_sell_uniqueness enabledConfig lossPriceEnv 0
      oneLossPositionDb [] (by decide)).1 "P"⟩

/-! ### Association-list and momentum-scoring lemmas -/

/-- Association lookup returns the stored value when keys are pairwise
distinct. -/
lemma lookup_eq_of_mem_of_nodup_keys {α : Type} {l : List (String × α)}
    (hnd : (l.map Prod.fst).Nodup) {s : String} {v : α} (h : (s, v) ∈ l) :
    l.lookup s = some v := by
  induction l with
  | nil => cases h
  | cons c l ih =>
    have hnd' : (l.map Prod.fst).Nodup := (List.nodup_cons.mp (by simpa using hnd)).2
    have hhead : c.1 ∉ l.map Prod.fst := (List.nodup_cons.mp (by simpa using hnd)).1
    rcases List.mem_cons.mp h with rfl | hmem
    · simp [List.lookup]
    · have hne : ¬ s = c.1 := by
        intro hcon
        refine hhead ?_
        rw [← hcon]
        exact List.mem_map_of_mem Prod.fst hmem
      have hbeq : (s == c.1) = false := beq_eq_false_iff_ne.mpr hne
      simpa [List.lookup, hbeq] using ih hnd' hmem

/-- With pairwise-distinct keys an association list stores one value per
key. -/
lemma assoc_value_unique {α : Type} {l : List (String × α)}
    (hnd : (l.map Prod.fst).Nodup) {s : String} {a b : α}
    (ha : (s, a) ∈ l) (hb : (s, b) ∈ l) : a = b := by
  have h1 := lookup_eq_of_mem_of_nodup_keys hnd ha
  have h2 := lookup_eq_of_mem_of_nodup_keys hnd hb
  exact Option.some.inj (h1.symm.trans h2)

/-- The scored list keeps a subsequence of the input symbols. -/
lemma momentumScored_keys_sublist (md : List (String × List (Option ℚ))) :
    List.Sublist ((momentumScored md).map Prod.fst) (md.map Prod.fst) := by
  induction md with
  | nil => simp [momentumScored]
  | cons c md ih =>
    simp only [momentumScored, List.filterMap_cons] at ih ⊢
    cases h : (momentumScoreOf (dropna c.2)).map (fun v => (c.1, v)) with
    | none =>
      simpa [h] using ih.cons c.1
    | some p =>
      have : p.1 = c.1 := by
        cases hm : momentumScoreOf (dropna c.2) with
        | none => rw [hm] at h; cases h
        | some v =>
          rw [hm] at h
          rw [← Option.some.inj h]
      simp only [h, List.map_cons, this]
      exact List.Sublist.cons₂ c.1 ih

/-- A symbol whose column keeps at least 252 observations is scored with
the exact 12-1 formula. -/
lemma momentumScoreOf_of_long (prices : List ℚ) (hlen : 252 ≤ prices.length) :
    momentumScoreOf prices = some
      ((ilocQ prices 1 - ilocQ prices 252) / ilocQ prices 252 -
        (ilocQ prices 1 - ilocQ prices 21) / ilocQ prices 21) := by
  unfold momentumScoreOf
  rw [if_neg (not_lt.mpr hlen), if_pos hlen, if_pos (le_trans (by norm_num) hlen)]

/-- Concrete two-symbol market data with distinct column names, used to
instantiate hypotheses of the filter theorems. -/
def twoColMd : List (String × List (Option ℚ)) :=
  [("A", List.replicate 252 (some 1)), ("B", List.replicate 252 (some 1))]

/-! ### C5: the technical buy filter -/

/-- Keys of the top-30 candidate list are pairwise distinct when the
market-data columns are. -/
lemma top30_keys_nodup (md : List (String × List (Option ℚ)))
    (hnd : (md.map Prod.fst).Nodup) :
    (((calculate_momentum_12_1 md).take 30).map Prod.fst).Nodup := by
  have hperm : List.Perm (calculate_momentum_12_1 md) (momentumScored md) :=
    List.perm_insertionSort scoreGE _
  have hkeys : ((calculate_momentum_12_1 md).map Prod.fst).Nodup :=
    ((hperm.map Prod.fst).nodup_iff).mpr ((momentumScored_keys_sublist md).nodup hnd)
  exact ((List.take_sublist 30 (calculate_momentum_12_1 md)).map Prod.fst).nodup hkeys

/-- C5.  For every top-30 candidate whose MACD and RSI are both available,
a buy signal is emitted iff the technical filter passes: strict mode
requires MACD-bullish and RSI-bullish, relaxed mode accepts either; and
the two bullish predicates are exactly the claimed comparisons on the last
two indicator values (when those are present). -/
theorem buy_signal_emitted_iff_filter_passes (cfg : Config) (d : ℕ)
    (md : List (String × List (Option ℚ))) (hnd : (md.map Prod.fst).Nodup) :
    (∀ c ∈ (calculate_momentum_12_1 md).take 30, ∀ prices macd_data rsi_data,
      md.lookup c.1 = some prices →
      calculate_macd prices 12 26 9 = some macd_data →
      calculate_rsi prices 14 = some rsi_data →
      ((∃ sig ∈ generate_daily_signals cfg d md, sig.symbol = c.1) ↔
        ((check_macd_bullish macd_data = true ∧ check_rsi_bullish rsi_data = true) ∨
          (cfg.relaxed_filters = true ∧
            (check_macd_bullish macd_data = true ∨ check_rsi_bullish rsi_data = true))))) ∧
    (∀ macd_data : MacdData, ∀ m1 m2 : ℚ, ilocOpt macd_data.macd 1 = some m1 →
      ilocOpt macd_data.macd 2 = some m2 → 2 ≤ macd_data.macd.length →
      (check_macd_bullish macd_data = true ↔
        ((0 < m1 ∧ m2 ≤ 0) ∨ (m2 < m1 ∧ 0 < m1)))) ∧
    (∀ rsi_data : List (Option ℚ), ∀ r1 r2 : ℚ, ilocOpt rsi_data 1 = some r1 →
      ilocOpt rsi_data 2 = some r2 → 2 ≤ rsi_data.length →
      (check_rsi_bullish rsi_data = true ↔
        ((50 < r1 ∧ r2 ≤ 50) ∨ (30 < r1 ∧ r2 ≤ 30)))) := by
  have htop := top30_keys_nodup md hnd
  have hperm : List.Perm (generate_daily_signals cfg d md)
      (((calculate_momentum_12_1 md).take 30).filterMap
        (processCandidate cfg d md ((calculate_momentum_12_1 md).take 30))) := by
    unfold generate_daily_signals
    exact List.perm_insertionSort sigGE _
  refine ⟨?_, ?_, ?_⟩
  · intro c hc prices macd_data rsi_data hp hm hr
    constructor
    · rintro ⟨sig, hsig, hsym⟩
      obtain ⟨c', hc', hpc⟩ := List.mem_filterMap.mp (hperm.mem_iff.mp hsig)
      have hcc : c' = c := by
        have h1 : c'.1 = c.1 := (processCandidate_symbol hpc) ▸ hsym
        have h2 : c'.2 = c.2 := by
          have ha : (c.1, c'.2) ∈ List.take 30 (calculate_momentum_12_1 md) := by
            rw [← h1]
            simpa using hc'
          have hb : (c.1, c.2) ∈ List.take 30 (calculate_momentum_12_1 md) := by
            simpa using hc
          exact assoc_value_unique htop ha hb
        exact Prod.ext h1 h2
      rw [hcc] at hpc
      obtain ⟨p2, m2, r2, hp2, hm2, hr2, hf2, _⟩ :=
        (processCandidate_eq_some_iff cfg d md _ c sig).mp hpc
      obtain rfl : prices = p2 := Option.some.inj (hp.symm.trans hp2)
      obtain rfl : macd_data = m2 := Option.some.inj (hm.symm.trans hm2)
      obtain rfl : rsi_data = r2 := Option.some.inj (hr.symm.trans hr2)
      simpa [Bool.or_eq_true, Bool.and_eq_true] using hf2
    · intro hfilter
      have hf : ((check_macd_bullish macd_data && check_rsi_bullish rsi_data) ||
          (cfg.relaxed_filters &&
            (check_macd_bullish macd_data || check_rsi_bullish rsi_data))) = true := by
        simpa [Bool.or_eq_true, Bool.and_eq_true] using hfilter
      have hpc : processCandidate cfg d md ((calculate_momentum_12_1 md).take 30) c =
          some (mkBuySignal d ((calculate_momentum_12_1 md).take 30) c macd_data rsi_data
            (check_macd_bullish macd_data) (check_rsi_bullish rsi_data)) :=
        (processCandidate_eq_some_iff cfg d md _ c _).mpr
          ⟨prices, macd_data, rsi_data, hp, hm, hr, hf, rfl⟩
      refine ⟨_, hperm.mem_iff.mpr (List.mem_filterMap.mpr ⟨c, hc, hpc⟩), ?_⟩
      exact processCandidate_symbol hpc
  · intro macd_data m1 m2 hm1 hm2 hlen
    rw [check_macd_bullish, if_neg (not_lt.mpr hlen)]
    rw [hm1, hm2]
    simp [ogt, ole]
  · intro rsi_data r1 r2 hr1 hr2 hlen
    rw [check_rsi_bullish, if_neg (not_lt.mpr hlen)]
    rw [hr1, hr2]
    simp [ogt, ole]

/-- C5 witness: the filter theorem applied to concrete distinct-column
market data, with the bullish characterisations instantiated at concrete
indicator frames. -/
theorem buy_signal_filter_witness :
    ((twoColMd.map Prod.fst).Nodup) ∧
    (check_macd_bullish ⟨[some (-1/2), some (3/10)], [], []⟩ = true ↔
      ((0 < (3/10 : ℚ) ∧ (-1/2 : ℚ) ≤ 0) ∨ ((-1/2 : ℚ) < 3/10 ∧ 0 < (3/10 : ℚ)))) :=
  ⟨by decide,
    (buy_signal_emitted_iff_filter_passes enabledConfig 0 twoColMd (by decide)).2.1
      ⟨[some (-1/2), some (3/10)], [], []⟩ (3/10) (-1/2) rfl rfl (by simp)⟩

/-! ### C6: the buy-signal strength -/

/-- C6 (amended).  Every emitted buy signal stores as its strength the
value `0.4·momentum_strength + 0.3·macd_strength + 0.3·rsi_strength`
rounded to 4 decimal places, with `momentum_strength = (31 − rank)/30`
for the 1-based momentum rank, `macd_strength = min(|macd_t|/2, 1)` and
`rsi_strength = min((rsi_t − 50)/50, 1)` (both clamped only from above),
together with that rank. -/
theorem buy_signal_strength_rounded_formula (cfg : Config) (d : ℕ)
    (md : List (String × List (Option ℚ))) (hnd : (md.map Prod.fst).Nodup) :
    ∀ c ∈ (calculate_momentum_12_1 md).take 30, ∀ prices macd_data rsi_data,
    md.lookup c.1 = some prices →
    calculate_macd prices 12 26 9 = some macd_data →
    calculate_rsi prices 14 = some rsi_data →
    ∀ mv rv : ℚ, ilocOpt macd_data.macd 1 = some mv →
    ilocOpt rsi_data 1 = some rv →
    ∀ sig ∈ generate_daily_signals cfg d md, sig.symbol = c.1 →
    sig.signal_strength = some (pyRound 4
      (0.4 * ((31 - ((((calculate_momentum_12_1 md).take 30).map Prod.fst).indexOf c.1 + 1 : ℕ)) / 30) +
        0.3 * min (|mv| / 2) 1 + 0.3 * min ((rv - 50) / 50) 1)) ∧
    sig.momentum_rank =
      some ((((calculate_momentum_12_1 md).take 30).map Prod.fst).indexOf c.1 + 1) := by
  intro c hc prices macd_data rsi_data hp hm hr mv rv hm1 hr1 sig hsig hsym
  have htop := top30_keys_nodup md hnd
  have hperm : List.Perm (generate_daily_signals cfg d md)
      (((calculate_momentum_12_1 md).take 30).filterMap
        (processCandidate cfg d md ((calculate_momentum_12_1 md).take 30))) := by
    unfold generate_daily_signals
    exact List.perm_insertionSort sigGE _
  obtain ⟨c', hc', hpc⟩ := List.mem_filterMap.mp (hperm.mem_iff.mp hsig)
  have hcc : c' = c := by
    have h1 : c'.1 = c.1 := (processCandidate_symbol hpc) ▸ hsym
    have h2 : c'.2 = c.2 := by
      have ha : (c.1, c'.2) ∈ List.take 30 (calculate_momentum_12_1 md) := by
        rw [← h1]
        simpa using hc'
      have hb : (c.1, c.2) ∈ List.take 30 (calculate_momentum_12_1 md) := by
        simpa using hc
      exact assoc_value_unique htop ha hb
    exact Prod.ext h1 h2
  rw [hcc] at hpc
  obtain ⟨p2, m2, r2, hp2, hm2, hr2, hf2, hsigeq⟩ :=
    (processCandidate_eq_some_iff cfg d md _ c sig).mp hpc
  obtain rfl : prices = p2 := Option.some.inj (hp.symm.trans hp2)
  obtain rfl : macd_data = m2 := Option.some.inj (hm.symm.trans hm2)
  obtain rfl : rsi_data = r2 := Option.some.inj (hr.symm.trans hr2)
  rw [hsigeq]
  constructor
  · unfold mkBuySignal
    simp only [hm1, hr1, Option.map_some']
    congr 1
    ring
  · unfold mkBuySignal
    rfl


/-! ### Evaluation lemmas for constant-prefix columns

The concrete instantiations below use a column that is constant for 251
days and moves on the last day; these lemmas evaluate the pipeline on
such columns. -/

lemma dropna_replicate (n : ℕ) (c : ℚ) :
    dropna (List.replicate n (some c)) = List.replicate n c := by
  induction n with
  | zero => rfl
  | succ n ih =>
    simp only [List.replicate_succ, dropna, List.filterMap_cons] at ih ⊢
    simp [ih]

lemma dropna_append (xs ys : List (Option ℚ)) :
    dropna (xs ++ ys) = dropna xs ++ dropna ys := by
  simp [dropna]

lemma ilocQ_concat_one (l : List ℚ) (x : ℚ) : ilocQ (l ++ [x]) 1 = x := by
  simp [ilocQ, List.getD_eq_getElem?_getD, List.getElem?_append_right]

lemma ilocQ_replicate_concat (n : ℕ) (c x : ℚ) (k : ℕ) (h2 : 2 ≤ k) (hk : k ≤ n + 1) :
    ilocQ (List.replicate n c ++ [x]) k = c := by
  have hlen : (List.replicate n c ++ [x]).length = n + 1 := by simp
  have hidx : n + 1 - k < n := by omega
  simp only [ilocQ, hlen, List.getD_eq_getElem?_getD]
  rw [List.getElem?_append_left (by simpa using hidx)]
  simp [List.getElem?_replicate, hidx]

lemma ilocOpt_concat_one (l : List (Option ℚ)) (x : Option ℚ) : ilocOpt (l ++ [x]) 1 = x := by
  simp [ilocOpt, List.getD_eq_getElem?_getD, List.getElem?_append_right]

lemma ilocOpt_replicate_concat (n : ℕ) (c x : Option ℚ) (k : ℕ)
    (h2 : 2 ≤ k) (hk : k ≤ n + 1) :
    ilocOpt (List.replicate n c ++ [x]) k = c := by
  have hlen : (List.replicate n c ++ [x]).length = n + 1 := by simp
  have hidx : n + 1 - k < n := by omega
  simp only [ilocOpt, hlen, List.getD_eq_getElem?_getD]
  rw [List.getElem?_append_left (by simpa using hidx)]
  simp [List.getElem?_replicate, hidx]

/-- Evolution of the `ewmGo` denominator over `n` observed steps. -/
def ewmDen (a : ℚ) (den : ℚ) : ℕ → ℚ
  | 0 => den
  | n + 1 => ewmDen a ((1 - a) * den + 1) n

lemma ewmDen_nonneg (a den : ℚ) (h1a : 0 ≤ 1 - a) (hden : 0 ≤ den) :
    ∀ n, 0 ≤ ewmDen a den n := by
  intro n
  induction n generalizing den with
  | zero => exact hden
  | succ n ih =>
    exact ih _ (by positivity)

/-- Over a constant observed prefix the adjusted EWM outputs the constant,
and the accumulators evolve to `(c * ewmDen, ewmDen)`. -/
lemma ewmGo_replicate (a c : ℚ) (h1a : 0 ≤ 1 - a) :
    ∀ (n : ℕ) (num den : ℚ) (rest : List (Option ℚ)), 0 ≤ den → num = c * den →
    ewmGo a num den (List.replicate n (some c) ++ rest) =
      List.replicate n (some c) ++
        ewmGo a (c * ewmDen a den n) (ewmDen a den n) rest := by
  intro n
  induction n with
  | zero =>
    intro num den rest _ hnum
    rw [hnum]
    rfl
  | succ n ih =>
    intro num den rest hden hnum
    have hden' : (0:ℚ) < (1 - a) * den + 1 := by positivity
    have hnum' : (1 - a) * num + c = c * ((1 - a) * den + 1) := by rw [hnum]; ring
    simp only [List.replicate_succ, List.cons_append, ewmGo]
    rw [hnum']
    rw [if_neg (ne_of_gt hden')]
    rw [mul_div_assoc, div_self (ne_of_gt hden'), mul_one]
    have hstep := ih (c * ((1 - a) * den + 1)) ((1 - a) * den + 1) rest
      (le_of_lt hden') rfl
    simp only [List.append_eq]
    rw [hstep]
    rfl

/-- The adjusted EWM of a single trailing observation. -/
lemma ewmGo_single (a num den v : ℚ) (h1a : 0 ≤ 1 - a) (hden : 0 ≤ den) :
    ewmGo a num den [some v] =
      [some (((1 - a) * num + v) / ((1 - a) * den + 1))] := by
  have hden' : (0:ℚ) < (1 - a) * den + 1 := by positivity
  simp only [ewmGo]
  rw [if_neg (ne_of_gt hden')]

/-- Closed evaluation of `ewm_mean` on a constant column with one trailing
move. -/
lemma ewm_mean_replicate_concat (span : ℕ) (hspan : 1 ≤ span) (c v : ℚ) (n : ℕ) :
    ewm_mean span (List.replicate n (some c) ++ [some v]) =
      List.replicate n (some c) ++
        [some (((1 - 2 / ((span : ℚ) + 1)) * (c * ewmDen (2 / ((span : ℚ) + 1)) 0 n) + v) /
          ((1 - 2 / ((span : ℚ) + 1)) * ewmDen (2 / ((span : ℚ) + 1)) 0 n + 1))] := by
  have hone : (1:ℚ) ≤ (span : ℚ) := by exact_mod_cast hspan
  have h1a : 0 ≤ 1 - 2 / ((span : ℚ) + 1) := by
    rw [sub_nonneg, div_le_one (by linarith)]
    linarith
  have hd0 : (0:ℚ) ≤ ewmDen (2 / ((span : ℚ) + 1)) 0 n :=
    ewmDen_nonneg _ 0 h1a le_rfl n
  unfold ewm_mean
  rw [ewmGo_replicate _ c h1a n 0 0 [some v] le_rfl (by ring),
    ewmGo_single _ _ _ _ h1a hd0]

/-- Closed form of the evolved denominator (a geometric sum). -/
lemma ewmDen_closed (a : ℚ) (ha : a ≠ 0) :
    ∀ (n : ℕ) (den : ℚ),
      ewmDen a den n = (1 - a) ^ n * den + (1 - (1 - a) ^ n) / a := by
  intro n
  induction n with
  | zero =>
    intro den
    show den = (1 - a) ^ 0 * den + (1 - (1 - a) ^ 0) / a
    simp
  | succ n ih =>
    intro den
    show ewmDen a ((1 - a) * den + 1) n = _
    rw [ih ((1 - a) * den + 1)]
    field_simp
    ring

/-- Elementwise difference of two constant-prefix columns. -/
lemma seriesSub_replicate_concat (n : ℕ) (a b x y : ℚ) :
    seriesSub (List.replicate n (some a) ++ [some x])
      (List.replicate n (some b) ++ [some y]) =
      List.replicate n (some (a - b)) ++ [some (x - y)] := by
  induction n with
  | zero => rfl
  | succ n ih =>
    simp only [List.replicate_succ, List.cons_append, seriesSub, List.zipWith_cons_cons] at ih ⊢
    rw [ih]

/-- Day-over-day deltas of a constant column with one trailing move. -/
lemma diffSeries_replicate_concat (m : ℕ) (c v : ℚ) :
    diffSeries (List.replicate (m + 1) (some c) ++ [some v]) =
      none :: (List.replicate m (some 0) ++ [some (v - c)]) := by
  have aux : ∀ (k : ℕ),
      List.zipWith (fun a b => match a, b with
        | some a, some b => some (a - b)
        | _, _ => (none : Option ℚ))
        (List.replicate k (some c) ++ [some v])
        (some c :: (List.replicate k (some c) ++ [some v])) =
      List.replicate k (some 0) ++ [some (v - c)] := by
    intro k
    induction k with
    | zero => simp
    | succ k ih =>
      simp only [List.replicate_succ, List.cons_append, List.zipWith_cons_cons] at ih ⊢
      rw [ih]
      norm_num
  unfold diffSeries
  simp only [List.replicate_succ, List.cons_append, List.zipWith_cons_cons]
  rw [aux m]

/-- `getElem?` through `zipWith`. -/
lemma zipWith_getElem? {α β γ : Type} (f : α → β → γ) :
    ∀ (as : List α) (bs : List β) (i : ℕ),
    (List.zipWith f as bs)[i]? =
      match as[i]?, bs[i]? with
      | some a, some b => some (f a b)
      | _, _ => none := by
  intro as
  induction as with
  | nil => intro bs i; cases bs <;> cases i <;> rfl
  | cons a as ih =>
    intro bs i
    cases bs with
    | nil => cases i <;> simp
    | cons b bs =>
      cases i with
      | zero => simp
      | succ i => simpa using ih bs i

lemma rollingMean_length (p : ℕ) (xs : List ℚ) :
    (rollingMean p xs).length = xs.length := by
  simp [rollingMean]

/-- `getElem?` through `rollingMean`. -/
lemma rollingMean_getElem? (p : ℕ) (xs : List ℚ) (t : ℕ) (ht : t < xs.length) :
    (rollingMean p xs)[t]? =
      some (if t + 1 < p then none
        else some ((((xs.drop (t + 1 - p)).take p).sum) / p)) := by
  unfold rollingMean
  rw [List.getElem?_map, List.getElem?_range ht]
  rfl

/-! ### A concrete 252-day column: flat at 100, closing at 102 -/

/-- Weight of a span. -/
def alphaOf (span : ℕ) : ℚ := 2 / ((span : ℚ) + 1)

/-- Last adjusted-EWM value over a column constant at `c` for `n` days
with final observation `v`. -/
def emaLastConst (span : ℕ) (c v : ℚ) (n : ℕ) : ℚ :=
  ((1 - alphaOf span) * (c * ewmDen (alphaOf span) 0 n) + v) /
    ((1 - alphaOf span) * ewmDen (alphaOf span) 0 n + 1)

lemma ewm_mean_replicate_concat2 (span : ℕ) (hspan : 1 ≤ span) (c v : ℚ) (n : ℕ) :
    ewm_mean span (List.replicate n (some c) ++ [some v]) =
      List.replicate n (some c) ++ [some (emaLastConst span c v n)] :=
  ewm_mean_replicate_concat span hspan c v n

/-- The concrete price column. -/
def cexColumn : List (Option ℚ) := List.replicate 251 (some 100) ++ [some 102]

/-- Market data with the single concrete column. -/
def cexMd : List (String × List (Option ℚ)) := [("X", cexColumn)]

/-- Relaxed-filter configuration. -/
def relaxedConfig : Config := ⟨15, 7/100, false, false, true⟩

/-- Last value of the fast EMA of the concrete column. -/
def cexVF : ℚ := emaLastConst 12 100 102 251

/-- Last value of the slow EMA of the concrete column. -/
def cexVS : ℚ := emaLastConst 26 100 102 251

/-- Last value of the MACD line of the concrete column. -/
def cexM1 : ℚ := cexVF - cexVS

/-- Last value of the MACD signal line of the concrete column. -/
def cexVG : ℚ := emaLastConst 9 0 cexM1 251

lemma cex_ema_fast : ewm_mean 12 cexColumn = List.replicate 251 (some 100) ++ [some cexVF] :=
  ewm_mean_replicate_concat2 12 (by norm_num) 100 102 251

lemma cex_ema_slow : ewm_mean 26 cexColumn = List.replicate 251 (some 100) ++ [some cexVS] :=
  ewm_mean_replicate_concat2 26 (by norm_num) 100 102 251

lemma cex_macd_line :
    seriesSub (ewm_mean 12 cexColumn) (ewm_mean 26 cexColumn) =
      List.replicate 251 (some 0) ++ [some cexM1] := by
  rw [cex_ema_fast, cex_ema_slow, seriesSub_replicate_concat]
  norm_num [cexM1]

lemma cex_signal_line :
    ewm_mean 9 (List.replicate 251 (some (0:ℚ)) ++ [some cexM1]) =
      List.replicate 251 (some 0) ++ [some cexVG] := by
  rw [ewm_mean_replicate_concat2 9 (by norm_num) 0 cexM1 251]
  rfl

/-- MACD frame of the concrete column. -/
def cexMacdData : MacdData :=
  ⟨List.replicate 251 (some 0) ++ [some cexM1],
   List.replicate 251 (some 0) ++ [some cexVG],
   List.replicate 251 (some 0) ++ [some (cexM1 - cexVG)]⟩

lemma cex_column_length : cexColumn.length = 252 := by
  rw [cexColumn, List.length_append, List.length_replicate]
  norm_num

lemma cex_macd_eval : calculate_macd cexColumn 12 26 9 = some cexMacdData := by
  have hcond : ¬ (cexColumn.length < 26 + 9) := by
    rw [cex_column_length]
    norm_num
  unfold calculate_macd
  rw [if_neg hcond]
  dsimp only
  rw [cex_macd_line, cex_signal_line, seriesSub_replicate_concat]
  unfold cexMacdData
  norm_num

lemma cex_column_as_succ : cexColumn = List.replicate (250 + 1) (some 100) ++ [some 102] := by
  unfold cexColumn
  norm_num

lemma cex_gains : (diffSeries cexColumn).map gainsOf = List.replicate 251 0 ++ [2] := by
  rw [cex_column_as_succ, diffSeries_replicate_concat]
  rw [List.map_cons, List.map_append, List.map_replicate, List.map_singleton]
  rw [show gainsOf none = 0 from rfl]
  rw [show gainsOf (some ((102:ℚ) - 100)) = 2 from by norm_num [gainsOf]]
  rw [show gainsOf (some (0:ℚ)) = 0 from by norm_num [gainsOf]]
  rw [show (251:ℕ) = 250 + 1 from by norm_num, List.replicate_succ (0:ℚ) 250,
    List.cons_append]

lemma cex_losses : (diffSeries cexColumn).map lossesOf = List.replicate 252 0 := by
  rw [cex_column_as_succ, diffSeries_replicate_concat]
  rw [List.map_cons, List.map_append, List.map_replicate, List.map_singleton]
  rw [show lossesOf none = 0 from rfl]
  rw [show lossesOf (some ((102:ℚ) - 100)) = 0 from by norm_num [lossesOf]]
  rw [show lossesOf (some (0:ℚ)) = 0 from by norm_num [lossesOf]]
  rw [show (252:ℕ) = (250 + 1) + 1 from by norm_num, List.replicate_succ (0:ℚ) (250 + 1),
    List.replicate_succ' 250 (0:ℚ)]

/-- RSI column of the concrete price column. -/
def cexRsi : List (Option ℚ) :=
  List.zipWith rsiCombine (rollingMean 14 (List.replicate 251 0 ++ [2]))
    (rollingMean 14 (List.replicate 252 0))

lemma cex_rsi_eval : calculate_rsi cexColumn 14 = some cexRsi := by
  have hcond : ¬ (cexColumn.length < 14 + 1) := by
    rw [cex_column_length]
    norm_num
  unfold calculate_rsi
  rw [if_neg hcond]
  dsimp only
  rw [cex_gains, cex_losses]
  rfl

lemma cex_rsi_length : cexRsi.length = 252 := by
  unfold cexRsi
  rw [List.length_zipWith, rollingMean_length, rollingMean_length,
    List.length_append, List.length_replicate, List.length_replicate]
  norm_num

lemma cex_macd_length : cexMacdData.macd.length = 252 := by
  unfold cexMacdData
  rw [List.length_append, List.length_replicate]
  norm_num

lemma cex_macd_iloc1 : ilocOpt cexMacdData.macd 1 = some cexM1 :=
  ilocOpt_concat_one _ _

lemma cex_macd_iloc2 : ilocOpt cexMacdData.macd 2 = some 0 :=
  ilocOpt_replicate_concat 251 (some 0) (some cexM1) 2 le_rfl (by norm_num)

lemma cex_avg_gains_top :
    (rollingMean 14 (List.replicate 251 0 ++ [2]))[251]? = some (some (2 / 14)) := by
  have hlen : (List.replicate 251 (0:ℚ) ++ [2]).length = 252 := by
    rw [List.length_append, List.length_replicate]
    norm_num
  rw [rollingMean_getElem? 14 _ 251 (by rw [hlen]; norm_num)]
  rw [if_neg (by norm_num)]
  rw [show (251:ℕ) + 1 - 14 = 238 from by norm_num]
  rw [List.drop_append_of_le_length (by rw [List.length_replicate]; norm_num)]
  rw [List.drop_replicate]
  rw [show (251:ℕ) - 238 = 13 from by norm_num]
  rw [List.take_of_length_le (by rw [List.length_append, List.length_replicate]; norm_num)]
  rw [List.sum_append, List.sum_replicate]
  norm_num

lemma cex_avg_gains_prev :
    (rollingMean 14 (List.replicate 251 0 ++ [2]))[250]? = some (some 0) := by
  have hlen : (List.replicate 251 (0:ℚ) ++ [2]).length = 252 := by
    rw [List.length_append, List.length_replicate]
    norm_num
  rw [rollingMean_getElem? 14 _ 250 (by rw [hlen]; norm_num)]
  rw [if_neg (by norm_num)]
  rw [show (250:ℕ) + 1 - 14 = 237 from by norm_num]
  rw [List.drop_append_of_le_length (by rw [List.length_replicate]; norm_num)]
  rw [List.drop_replicate]
  rw [show (251:ℕ) - 237 = 14 from by norm_num]
  rw [List.take_append_of_le_length (by rw [List.length_replicate])]
  rw [List.take_replicate]
  norm_num

lemma cex_avg_losses (t : ℕ) (ht : t < 252) (hwin : 13 ≤ t) :
    (rollingMean 14 (List.replicate 252 0))[t]? = some (some 0) := by
  rw [rollingMean_getElem? 14 _ t (by rw [List.length_replicate]; omega)]
  rw [if_neg (by omega)]
  rw [List.drop_replicate, List.take_replicate, List.sum_replicate]
  norm_num

lemma cex_rsi_iloc1 : ilocOpt cexRsi 1 = some 100 := by
  unfold ilocOpt
  rw [cex_rsi_length, List.getD_eq_getElem?_getD]
  rw [show (252:ℕ) - 1 = 251 from by norm_num]
  unfold cexRsi
  rw [zipWith_getElem?, cex_avg_gains_top, cex_avg_losses 251 (by norm_num) (by norm_num)]
  dsimp only
  norm_num [rsiCombine, rsiPoint]

lemma cex_rsi_iloc2 : ilocOpt cexRsi 2 = none := by
  unfold ilocOpt
  rw [cex_rsi_length, List.getD_eq_getElem?_getD]
  rw [show (252:ℕ) - 2 = 250 from by norm_num]
  unfold cexRsi
  rw [zipWith_getElem?, cex_avg_gains_prev, cex_avg_losses 250 (by norm_num) (by norm_num)]
  dsimp only
  norm_num [rsiCombine, rsiPoint]

lemma alphaOf_12 : alphaOf 12 = 2/13 := by unfold alphaOf; norm_num

lemma alphaOf_26 : alphaOf 26 = 2/27 := by unfold alphaOf; norm_num

/-- Numeric bounds on the last MACD value of the concrete column
(`cexM1 ≈ 0.159544`). -/
lemma cexM1_bounds : (15954/100000 : ℚ) < cexM1 ∧ cexM1 < 15955/100000 := by
  unfold cexM1 cexVF cexVS emaLastConst
  rw [alphaOf_12, alphaOf_26]
  rw [ewmDen_closed (2/13) (by norm_num) 251 0, ewmDen_closed (2/27) (by norm_num) 251 0]
  constructor <;> norm_num

lemma cexM1_pos : 0 < cexM1 := lt_trans (by norm_num) cexM1_bounds.1

lemma cex_macd_bullish : check_macd_bullish cexMacdData = true := by
  unfold check_macd_bullish
  rw [if_neg (by rw [cex_macd_length]; norm_num)]
  dsimp only
  rw [cex_macd_iloc1, cex_macd_iloc2]
  simp only [ogt, ole]
  rw [decide_eq_true cexM1_pos]
  norm_num

lemma cex_rsi_not_bullish : check_rsi_bullish cexRsi = false := by
  unfold check_rsi_bullish
  rw [if_neg (by rw [cex_rsi_length]; norm_num)]
  dsimp only
  rw [cex_rsi_iloc1, cex_rsi_iloc2]
  simp [ogt, ole]

lemma cex_dropna : dropna cexColumn = List.replicate 251 100 ++ [102] := by
  unfold cexColumn
  rw [dropna_append, dropna_replicate]
  rfl

lemma cex_score : momentumScoreOf (dropna cexColumn) = some 0 := by
  rw [cex_dropna]
  have hlen : (List.replicate 251 (100:ℚ) ++ [102]).length = 252 := by
    rw [List.length_append, List.length_replicate]
    norm_num
  rw [momentumScoreOf_of_long _ (by rw [hlen])]
  rw [show ilocQ (List.replicate 251 (100:ℚ) ++ [102]) 1 = 102 from ilocQ_concat_one _ _]
  rw [ilocQ_replicate_concat 251 100 102 252 (by norm_num) (by norm_num)]
  rw [ilocQ_replicate_concat 251 100 102 21 (by norm_num) (by norm_num)]
  norm_num

lemma cex_momentum : calculate_momentum_12_1 cexMd = [("X", 0)] := by
  unfold calculate_momentum_12_1 momentumScored cexMd
  rw [List.filterMap_cons]
  dsimp only
  rw [cex_score]
  rfl

/-- The single buy signal the generator emits on the concrete data. -/
def cexSignal : Signal := mkBuySignal 0 [("X", 0)] ("X", 0) cexMacdData cexRsi true false

lemma cex_process :
    processCandidate relaxedConfig 0 cexMd [("X", 0)] ("X", 0) = some cexSignal := by
  refine (processCandidate_eq_some_iff relaxedConfig 0 cexMd [("X", 0)] ("X", 0)
    cexSignal).mpr ⟨cexColumn, cexMacdData, cexRsi, ?_, cex_macd_eval, cex_rsi_eval, ?_, ?_⟩
  · simp [cexMd, List.lookup]
  · rw [cex_macd_bullish, cex_rsi_not_bullish]
    rfl
  · unfold cexSignal
    rw [cex_macd_bullish, cex_rsi_not_bullish]

lemma cex_generate :
    generate_daily_signals relaxedConfig 0 cexMd = [cexSignal] := by
  unfold generate_daily_signals
  rw [cex_momentum]
  show List.insertionSort sigGE (List.filterMap
    (processCandidate relaxedConfig 0 cexMd [("X", (0:ℚ))]) [("X", (0:ℚ))]) = [cexSignal]
  rw [List.filterMap_cons, cex_process]
  rfl

lemma cexM1_half_le_one : |cexM1| / 2 ≤ 1 := by
  rw [abs_of_pos cexM1_pos]
  have := cexM1_bounds.2
  linarith

lemma cex_strength : cexSignal.signal_strength = some (pyRound 4 (7/10 + cexM1 * (3/20))) := by
  unfold cexSignal mkBuySignal
  simp only [cex_macd_iloc1, cex_rsi_iloc1, Option.map_some']
  congr 1
  have hle : cexM1 / 2 ≤ 1 := by
    have := cexM1_bounds.2
    linarith
  rw [abs_of_pos cexM1_pos]
  rw [min_eq_left hle]
  rw [show min (((100:ℚ) - 50) / 50) 1 = 1 from by norm_num]
  rw [show (List.indexOf "X" (List.map Prod.fst [("X", (0:ℚ))]) + 1 : ℕ) = 1 from rfl]
  push_cast
  ring

lemma cex_q_bounds : (7239 + 31/100 : ℚ) < (7/10 + cexM1 * (3/20)) * 10 ^ 4 ∧
    (7/10 + cexM1 * (3/20)) * 10 ^ 4 < 7239 + 33/100 := by
  obtain ⟨hlo, hhi⟩ := cexM1_bounds
  constructor <;> nlinarith

lemma cex_round : pyRound 4 (7/10 + cexM1 * (3/20)) = 7239/10000 := by
  obtain ⟨hq1, hq2⟩ := cex_q_bounds
  have hfloor : ⌊(7/10 + cexM1 * (3/20)) * 10 ^ 4⌋ = 7239 := by
    rw [Int.floor_eq_iff]
    push_cast
    constructor <;> linarith
  unfold pyRound roundHalfEven
  rw [hfloor]
  rw [if_pos (by push_cast; linarith)]
  norm_num

/-- C6 (counterexample).  On the concrete one-column data in relaxed mode
the generator emits exactly one buy signal, for symbol `X` at momentum
rank 1, whose stored strength is `0.7239` — the 4-decimal rounding of the
exact combination — while the claimed exact formula value differs from
it. -/
theorem buy_strength_not_exact_counterexample :
    ((generate_daily_signals relaxedConfig 0 cexMd).map
      (fun s => (s.symbol, s.signal_strength)) = [("X", some (7239/10000))]) ∧
    calculate_macd cexColumn 12 26 9 = some cexMacdData ∧
    ilocOpt cexMacdData.macd 1 = some cexM1 ∧
    calculate_rsi cexColumn 14 = some cexRsi ∧
    ilocOpt cexRsi 1 = some 100 ∧
    ((calculate_momentum_12_1 cexMd).take 30).map Prod.fst = ["X"] ∧
    0.4 * ((31 - (1:ℚ)) / 30) + 0.3 * min (|cexM1| / 2) 1 +
      0.3 * min (((100:ℚ) - 50) / 50) 1 ≠ 7239 / 10000 := by
  refine ⟨?_, cex_macd_eval, cex_macd_iloc1, cex_rsi_eval, cex_rsi_iloc1, ?_, ?_⟩
  · rw [cex_generate, List.map_singleton, cex_strength, cex_round]
    rfl
  · rw [cex_momentum]
    rfl
  · rw [abs_of_pos cexM1_pos]
    rw [min_eq_left (by have := cexM1_bounds.2; linarith)]
    rw [show min (((100:ℚ) - 50) / 50) 1 = 1 from by norm_num]
    obtain ⟨hlo, _⟩ := cexM1_bounds
    intro hcon
    nlinarith

/-- C6 witness: the amended strength theorem applied end-to-end at the
concrete one-column data, with every hypothesis discharged. -/
theorem buy_signal_strength_formula_witness :
    ((cexMd.map Prod.fst).Nodup) ∧
    (cexSignal.signal_strength = some (pyRound 4
      (0.4 * ((31 - ((((calculate_momentum_12_1 cexMd).take 30).map Prod.fst).indexOf "X" + 1 : ℕ)) / 30) +
        0.3 * min (|cexM1| / 2) 1 + 0.3 * min (((100:ℚ) - 50) / 50) 1)) ∧
      cexSignal.momentum_rank =
        some ((((calculate_momentum_12_1 cexMd).take 30).map Prod.fst).indexOf "X" + 1)) := by
  have hmem : ("X", (0:ℚ)) ∈ (calculate_momentum_12_1 cexMd).take 30 := by
    rw [cex_momentum]
    simp
  have hlookup : cexMd.lookup "X" = some cexColumn := by
    simp [cexMd, List.lookup]
  have hsigmem : cexSignal ∈ generate_daily_signals relaxedConfig 0 cexMd := by
    rw [cex_generate]
    simp
  exact ⟨by decide,
    buy_signal_strength_rounded_formula relaxedConfig 0 cexMd (by decide)
      ("X", 0) hmem cexColumn cexMacdData cexRsi hlookup cex_macd_eval cex_rsi_eval
      cexM1 100 cex_macd_iloc1 cex_rsi_iloc1 cexSignal hsigmem rfl⟩

/-! ### C4: the EMA convention behind the MACD computation -/

/-- Modelled from the spec: the recurrence-seeded EMA the specification
describes (`EMA₀ = first value`, `EMAₜ = α·priceₜ + (1−α)·EMAₜ₋₁`), for
comparison with the adjusted weighted mean the code computes. -/
def emaRecGo (a : ℚ) (prev : ℚ) : List ℚ → List ℚ
  | [] => []
  | x :: xs => (a * x + (1 - a) * prev) :: emaRecGo a (a * x + (1 - a) * prev) xs

/-- Modelled from the spec: recurrence-seeded EMA over a whole series. -/
def emaRec (span : ℕ) : List ℚ → List ℚ
  | [] => []
  | x :: xs => x :: emaRecGo (alphaOf span) x xs

/-- The adjusted weighted mean pandas' default `ewm(...).mean()`
(`adjust=True`) computes at index `t`. -/
def wEMA (span : ℕ) (xs : List ℚ) (t : ℕ) : ℚ :=
  (∑ i in Finset.range (t + 1), (1 - alphaOf span) ^ (t - i) * xs.getD i 0) /
    (∑ i in Finset.range (t + 1), (1 - alphaOf span) ^ (t - i))

lemma ewmGo_length (a num den : ℚ) :
    ∀ xs : List (Option ℚ), (ewmGo a num den xs).length = xs.length := by
  intro xs
  induction xs generalizing num den with
  | nil => rfl
  | cons x xs ih =>
    cases x with
    | none => simp only [ewmGo, List.length_cons, ih]
    | some v => simp only [ewmGo, List.length_cons, ih]

/-- Closed form of `ewmGo` over a fully observed series. -/
lemma ewmGo_map_some_getElem (a : ℚ) (h1a : 0 ≤ 1 - a) :
    ∀ (xs : List ℚ) (num den : ℚ) (t : ℕ), 0 ≤ den → t < xs.length →
    (ewmGo a num den (xs.map some))[t]? = some (some
      (((1 - a) ^ (t + 1) * num + ∑ i in Finset.range (t + 1), (1 - a) ^ (t - i) * xs.getD i 0) /
        ((1 - a) ^ (t + 1) * den + ∑ i in Finset.range (t + 1), (1 - a) ^ (t - i)))) := by
  intro xs
  induction xs with
  | nil =>
    intro num den t _ ht
    exact absurd ht (by simp)
  | cons x xs ih =>
    intro num den t hden ht
    have hden' : (0:ℚ) < (1 - a) * den + 1 := by positivity
    cases t with
    | zero =>
      simp only [List.map_cons, ewmGo, List.getElem?_cons_zero]
      rw [if_neg (ne_of_gt hden')]
      congr 2
      rw [Finset.sum_range_one, Finset.sum_range_one]
      simp [List.getD_cons_zero]
    | succ t =>
      have hlt : t < xs.length := by simpa using ht
      simp only [List.map_cons, ewmGo, List.getElem?_cons_succ]
      rw [ih ((1 - a) * num + x) ((1 - a) * den + 1) t (le_of_lt hden') hlt]
      congr 3
      · rw [Finset.sum_range_succ' (fun i => (1 - a) ^ (t + 1 - i) * (x :: xs).getD i 0) (t + 1)]
        have hre : ∀ i ∈ Finset.range (t + 1),
            (1 - a) ^ (t + 1 - (i + 1)) * (x :: xs).getD (i + 1) 0 =
            (1 - a) ^ (t - i) * xs.getD i 0 := by
          intro i _
          rw [List.getD_cons_succ, Nat.succ_sub_succ]
        rw [Finset.sum_congr rfl hre]
        rw [List.getD_cons_zero, Nat.sub_zero]
        ring
      · rw [Finset.sum_range_succ' (fun i => (1 - a) ^ (t + 1 - i)) (t + 1)]
        have hre : ∀ i ∈ Finset.range (t + 1),
            (1 - a) ^ (t + 1 - (i + 1)) = (1 - a) ^ (t - i) := by
          intro i _
          rw [Nat.succ_sub_succ]
        rw [Finset.sum_congr rfl hre]
        rw [Nat.sub_zero]
        ring

/-- Positivity of a span's weight complement. -/
lemma one_sub_alphaOf_nonneg (span : ℕ) (hspan : 1 ≤ span) : 0 ≤ 1 - alphaOf span := by
  unfold alphaOf
  have hone : (1:ℚ) ≤ (span : ℚ) := by exact_mod_cast hspan
  rw [sub_nonneg, div_le_one (by linarith)]
  linarith

/-- On a fully observed series, pandas' `ewm(span).mean()` is exactly the
span-weighted mean at every index. -/
lemma ewm_mean_map_some (span : ℕ) (hspan : 1 ≤ span) (xs : List ℚ) :
    ewm_mean span (xs.map some) =
      (List.range xs.length).map (fun t => some (wEMA span xs t)) := by
  have h1a := one_sub_alphaOf_nonneg span hspan
  apply List.ext_getElem?
  intro t
  by_cases ht : t < xs.length
  · unfold ewm_mean
    rw [show (2 / ((span : ℚ) + 1)) = alphaOf span from rfl]
    rw [ewmGo_map_some_getElem (alphaOf span) h1a xs 0 0 t le_rfl ht]
    rw [List.getElem?_map, List.getElem?_range ht]
    unfold wEMA
    norm_num
  · rw [List.getElem?_eq_none, List.getElem?_eq_none]
    · rw [List.length_map, List.length_range]
      omega
    · unfold ewm_mean
      rw [ewmGo_length, List.length_map]
      omega

/-- The MACD line values (as plain rationals) on a fully observed series. -/
def macdVals (fast slow : ℕ) (xs : List ℚ) : List ℚ :=
  List.zipWith (fun p q => p - q) ((List.range xs.length).map (wEMA fast xs))
    ((List.range xs.length).map (wEMA slow xs))

lemma macdVals_length (fast slow : ℕ) (xs : List ℚ) :
    (macdVals fast slow xs).length = xs.length := by
  unfold macdVals
  simp

lemma seriesSub_map_some (as : List ℚ) :
    ∀ bs : List ℚ, seriesSub (as.map some) (bs.map some) =
      (List.zipWith (fun p q => p - q) as bs).map some := by
  induction as with
  | nil => intro bs; rfl
  | cons a as ih =>
    intro bs
    cases bs with
    | nil => rfl
    | cons b bs =>
      simp only [List.map_cons, seriesSub, List.zipWith_cons_cons] at ih ⊢
      exact congrArg (fun l => some (a - b) :: l) (ih bs)

/-- C4 (amended).  On every fully observed series of length at least
`slow + signal`, `calculate_macd` returns a frame whose MACD line is, at
every index, the difference of the pandas adjusted weighted-mean EMAs
(`adjust=True`), whose signal line is that same weighted-mean EMA of the
MACD line with span `signal`, and whose histogram is MACD − signal. -/
theorem macd_weighted_mean_characterisation (xs : List ℚ) (fast slow : ℕ) (signal : ℕ)
    (hf : 1 ≤ fast) (hs : 1 ≤ slow) (hg : 1 ≤ signal)
    (hlen : slow + signal ≤ xs.length) :
    ∃ m, calculate_macd (xs.map some) fast slow signal = some m ∧
      m.macd = (macdVals fast slow xs).map some ∧
      m.signal = ((List.range xs.length).map (wEMA signal (macdVals fast slow xs))).map some ∧
      m.histogram = (List.zipWith (fun p q => p - q) (macdVals fast slow xs)
        ((List.range xs.length).map (wEMA signal (macdVals fast slow xs)))).map some ∧
      (∀ t, t < xs.length →
        (macdVals fast slow xs)[t]? = some (wEMA fast xs t - wEMA slow xs t)) := by
  have hmacd : seriesSub (ewm_mean fast (xs.map some)) (ewm_mean slow (xs.map some)) =
      (macdVals fast slow xs).map some := by
    rw [ewm_mean_map_some fast hf xs, ewm_mean_map_some slow hs xs]
    rw [show (List.range xs.length).map (fun t => some (wEMA fast xs t)) =
      ((List.range xs.length).map (wEMA fast xs)).map some from (List.map_map _ _ _).symm]
    rw [show (List.range xs.length).map (fun t => some (wEMA slow xs t)) =
      ((List.range xs.length).map (wEMA slow xs)).map some from (List.map_map _ _ _).symm]
    rw [seriesSub_map_some]
    rfl
  have hsig : ewm_mean signal ((macdVals fast slow xs).map some) =
      ((List.range xs.length).map (wEMA signal (macdVals fast slow xs))).map some := by
    rw [ewm_mean_map_some signal hg (macdVals fast slow xs), macdVals_length]
    rw [List.map_map]
    rfl
  refine ⟨⟨(macdVals fast slow xs).map some,
    ((List.range xs.length).map (wEMA signal (macdVals fast slow xs))).map some,
    (List.zipWith (fun p q => p - q) (macdVals fast slow xs)
      ((List.range xs.length).map (wEMA signal (macdVals fast slow xs)))).map some⟩,
    ?_, rfl, rfl, rfl, ?_⟩
  · unfold calculate_macd
    rw [if_neg (by rw [List.length_map]; omega)]
    dsimp only
    rw [hmacd, hsig, seriesSub_map_some]
  · intro t ht
    unfold macdVals
    rw [zipWith_getElem?, List.getElem?_map, List.getElem?_map, List.getElem?_range ht]
    rfl

/-- C4 witness: the weighted-mean characterisation applied to a concrete
35-day series. -/
theorem macd_weighted_mean_witness :
    (1 ≤ 12 ∧ 1 ≤ 26 ∧ 1 ≤ 9 ∧ 26 + 9 ≤ (List.replicate 35 (1:ℚ)).length) ∧
    (∃ m, calculate_macd ((List.replicate 35 (1:ℚ)).map some) 12 26 9 = some m ∧
      m.macd = (macdVals 12 26 (List.replicate 35 (1:ℚ))).map some ∧
      m.signal = ((List.range (List.replicate 35 (1:ℚ)).length).map
        (wEMA 9 (macdVals 12 26 (List.replicate 35 (1:ℚ))))).map some ∧
      m.histogram = (List.zipWith (fun p q => p - q) (macdVals 12 26 (List.replicate 35 (1:ℚ)))
        ((List.range (List.replicate 35 (1:ℚ)).length).map
          (wEMA 9 (macdVals 12 26 (List.replicate 35 (1:ℚ)))))).map some ∧
      (∀ t, t < (List.replicate 35 (1:ℚ)).length →
        (macdVals 12 26 (List.replicate 35 (1:ℚ)))[t]? =
          some (wEMA 12 (List.replicate 35 (1:ℚ)) t - wEMA 26 (List.replicate 35 (1:ℚ)) t))) :=
  ⟨⟨by norm_num, by norm_num, by norm_num, by rw [List.length_replicate]⟩,
    macd_weighted_mean_characterisation (List.replicate 35 (1:ℚ)) 12 26 9
      (by norm_num) (by norm_num) (by norm_num) (by rw [List.length_replicate])⟩

/-- Concrete 35-day series separating the two EMA conventions. -/
def c4Series : List ℚ := (0:ℚ) :: List.replicate 34 1

lemma c4Series_length : c4Series.length = 35 := by
  unfold c4Series
  rw [List.length_cons, List.length_replicate]

lemma c4_wema_fast : wEMA 12 c4Series 1 = 13/24 := by
  unfold wEMA c4Series alphaOf
  rw [Finset.sum_range_succ, Finset.sum_range_one,
    Finset.sum_range_succ, Finset.sum_range_one]
  rw [List.getD_cons_zero, List.getD_cons_succ]
  rw [show (34:ℕ) = 33 + 1 from by norm_num, List.replicate_succ, List.getD_cons_zero]
  norm_num

lemma c4_wema_slow : wEMA 26 c4Series 1 = 27/52 := by
  unfold wEMA c4Series alphaOf
  rw [Finset.sum_range_succ, Finset.sum_range_one,
    Finset.sum_range_succ, Finset.sum_range_one]
  rw [List.getD_cons_zero, List.getD_cons_succ]
  rw [show (34:ℕ) = 33 + 1 from by norm_num, List.replicate_succ, List.getD_cons_zero]
  norm_num

lemma c4_emaRec_second (span : ℕ) :
    (emaRec span c4Series)[1]? = some (alphaOf span * 1 + (1 - alphaOf span) * 0) := by
  unfold emaRec c4Series
  rw [show (34:ℕ) = 33 + 1 from by norm_num, List.replicate_succ]
  simp only [emaRecGo]
  rw [List.getElem?_cons_succ, List.getElem?_cons_zero]

/-- C4 (counterexample).  On the series `0, 1, 1, …` (35 observations) the
code's MACD line value at index 1 is `7/312` (adjusted weighted-mean
EMAs, pandas' default), while the recurrence-seeded EMAs of the claim
give `28/351` there: the claimed recurrence does not describe
`calculate_macd`. -/
theorem macd_recurrence_convention_counterexample :
    (calculate_macd (c4Series.map some) 12 26 9).map (fun m => m.macd[1]?) =
      some (some (some (7/312))) ∧
    (List.zipWith (fun p q => p - q) (emaRec 12 c4Series) (emaRec 26 c4Series))[1]? =
      some (28/351) ∧
    (7/312 : ℚ) ≠ 28/351 := by
  refine ⟨?_, ?_, by norm_num⟩
  · have h12 : (ewm_mean 12 (c4Series.map some))[1]? = some (some (wEMA 12 c4Series 1)) := by
      rw [ewm_mean_map_some 12 (by norm_num) c4Series, List.getElem?_map,
        List.getElem?_range (by rw [c4Series_length]; norm_num)]
      rfl
    have h26 : (ewm_mean 26 (c4Series.map some))[1]? = some (some (wEMA 26 c4Series 1)) := by
      rw [ewm_mean_map_some 26 (by norm_num) c4Series, List.getElem?_map,
        List.getElem?_range (by rw [c4Series_length]; norm_num)]
      rfl
    unfold calculate_macd
    rw [if_neg (by rw [List.length_map, c4Series_length]; norm_num)]
    dsimp only [Option.map_some']
    unfold seriesSub
    rw [zipWith_getElem?, h12, h26]
    dsimp only
    rw [c4_wema_fast, c4_wema_slow]
    norm_num
  · rw [zipWith_getElem?, c4_emaRec_second 12, c4_emaRec_second 26]
    dsimp only
    unfold alphaOf
    norm_num

end Trading
